import Mathlib

/-!
Verification of the context-aware keyword evaluation engine of
behoerden-klartext (src/lib/scoring/context.ts, src/lib/scoring/keywords.ts,
src/lib/scoring/highlighter.ts and the main scoring engine).

The TypeScript code is shallowly embedded: strings are `List Char` wrapped in
`String`, the JavaScript regular expressions used by the engine are embedded as
small token patterns with explicit word-boundary semantics (`\b` over the
ASCII word characters, as in non-unicode JS regexes), and `Math.round` on the
nonnegative rationals produced by the weight formulas is embedded as exact
round-half-up integer arithmetic (for the integer weights and the multipliers
3/2, 5/4, 11/10 and 1 used by the engine this agrees with IEEE double
evaluation).
-/

namespace BK

/-! ## JavaScript character model -/

/-- The characters matched by `\s` in a JavaScript regex (also the set trimmed
by `String.prototype.trim`). -/
def jsSpaceChars : List Char :=
  [' ', '\t', '\n', '\r', '\x0b', '\x0c', '\u00a0', '\u1680',
   '\u2000', '\u2001', '\u2002', '\u2003', '\u2004', '\u2005', '\u2006',
   '\u2007', '\u2008', '\u2009', '\u200a', '\u2028', '\u2029', '\u202f',
   '\u205f', '\u3000', '\ufeff']

def isJsSpace (c : Char) : Bool := jsSpaceChars.contains c

/-- Word characters of a non-unicode JavaScript regex (`\w`, the character
set that `\b` boundaries are computed from): ASCII letters, digits and
underscore.  German umlauts are *not* word characters in JS. -/
def isWordChar (c : Char) : Bool :=
  (('a' ≤ c && c ≤ 'z') || ('A' ≤ c && c ≤ 'Z') || ('0' ≤ c && c ≤ '9')
    || c == '_')

/-- `String.prototype.toLowerCase` restricted to the characters that occur in
the engine's dictionaries and inputs: ASCII letters and the German letters
Ä, Ö, Ü (ß is already lowercase). All other characters are unchanged. -/
def toLowerChar (c : Char) : Char :=
  if 'A' ≤ c && c ≤ 'Z' then Char.ofNat (c.toNat + 32)
  else if c == 'Ä' then 'ä'
  else if c == 'Ö' then 'ö'
  else if c == 'Ü' then 'ü'
  else c

def lowerL (cs : List Char) : List Char := cs.map toLowerChar

def lowerStr (s : String) : String := String.mk (lowerL s.data)

/-! ## List-of-characters primitives (JS string operations) -/

/-- Case-sensitive prefix test. -/
def isPre : List Char → List Char → Bool
  | [], _ => true
  | _ :: _, [] => false
  | p :: ps, c :: cs => p == c && isPre ps cs

/-- Case-insensitive prefix test (the text character is lowered; patterns are
stored lowercase). -/
def isPreCI : List Char → List Char → Bool
  | [], _ => true
  | _ :: _, [] => false
  | p :: ps, c :: cs => p == toLowerChar c && isPreCI ps cs

/-- First occurrence of `pat` in `cs` at index ≥ `i`, scanning left to right
(the index returned is absolute, `cs` is the suffix starting at `i`). -/
def occAux (pat : List Char) : List Char → Nat → Option Nat
  | [], i => if pat.isEmpty then some i else none
  | c :: rest, i =>
    if isPre pat (c :: rest) then some i else occAux pat rest (i + 1)

/-- `String.prototype.indexOf(pat, start)` (found case), as an `Option`. -/
def occFrom (pat cs : List Char) (start : Nat) : Option Nat :=
  occAux pat (cs.drop start) start

def containsL (cs pat : List Char) : Bool := (occFrom pat cs 0).isSome

/-- `indexOf` with the JS `-1` convention. -/
def jsIndexOf (cs pat : List Char) : Int :=
  match occFrom pat cs 0 with
  | some i => (i : Int)
  | none => -1

/-- Replace the first occurrence of `pat` by `rep`
(`String.prototype.replace` with a plain-string pattern). -/
def replaceFirstL (cs pat rep : List Char) : List Char :=
  match occFrom pat cs 0 with
  | some i => cs.take i ++ rep ++ cs.drop (i + pat.length)
  | none => cs

/-- `String.prototype.substring(a, b)`: negative arguments clamp to 0,
arguments beyond the length clamp to the length, and the two are swapped when
out of order. -/
def jsSubstringL (cs : List Char) (a b : Int) : List Char :=
  let n : Int := cs.length
  let a' := (max 0 (min a n)).toNat
  let b' := (max 0 (min b n)).toNat
  let lo := min a' b'
  let hi := max a' b'
  (cs.take hi).drop lo

def jsTrimL (cs : List Char) : List Char :=
  ((cs.dropWhile isJsSpace).reverse.dropWhile isJsSpace).reverse

def jsTrim (s : String) : String := String.mk (jsTrimL s.data)

/-- Length of the run of JS whitespace at the head of `cs`. -/
def wsCount : List Char → Nat
  | [] => 0
  | c :: rest => if isJsSpace c then wsCount rest + 1 else 0

/-- Length of the run of `'\n'` at the head of `cs`. -/
def nlCount : List Char → Nat
  | [] => 0
  | c :: rest => if c == '\n' then nlCount rest + 1 else 0

/-! ## Embedded regex patterns

Every pattern the engine tests is of the shape `\b … \b` where `…` is a
sequence of lowercase literals, `\s+` gaps, single-character classes such as
`[üu]`, and optional character classes such as `[nmrs]?`.  They are embedded
as token lists with exact word-boundary and greedy/backtracking semantics. -/

inductive Tok where
  | lit : List Char → Tok
  | ws : Tok
  | cls : List Char → Tok
  | opt : List Char → Tok
deriving Repr, DecidableEq

/-- Does the token list match a prefix of `cs`, with a `\b` word boundary
required after the match?  (All embedded patterns begin and end with letters,
so the trailing boundary holds iff the next character is absent or not a word
character.) -/
def matchAt : List Tok → List Char → Bool
  | [], cs =>
    match cs with
    | [] => true
    | c :: _ => !isWordChar c
  | .lit w :: rest, cs => isPreCI w cs && matchAt rest (cs.drop w.length)
  | .ws :: rest, cs =>
    decide (1 ≤ wsCount cs) && matchAt rest (cs.drop (wsCount cs))
  | .cls _ :: _, [] => false
  | .cls chars :: rest, c :: cs2 =>
    chars.contains (toLowerChar c) && matchAt rest cs2
  | .opt _ :: rest, [] => matchAt rest []
  | .opt chars :: rest, c :: cs2 =>
    (chars.contains (toLowerChar c) && matchAt rest cs2)
      || matchAt rest (c :: cs2)

/-- Word-boundary condition before a match position whose previous character
is `prev` (`none` at the start of the string). -/
def boundaryBefore : Option Char → Bool
  | none => true
  | some c => !isWordChar c

/-- Scan all positions of `cs` for a `\b`-anchored match of `toks`
(`RegExp.prototype.test`). -/
def testPatFrom (toks : List Tok) : Option Char → List Char → Bool
  | prev, cs =>
    (boundaryBefore prev && matchAt toks cs)
      || match cs with
         | [] => false
         | c :: rest => testPatFrom toks (some c) rest

def testPat (toks : List Tok) (cs : List Char) : Bool :=
  testPatFrom toks none cs

def testPatS (toks : List Tok) (s : String) : Bool := testPat toks s.data

/-! ## Data model (src/lib/extraction: types) -/

inductive LetterCategory where
  | enforcement | final_notice | payment_reminder | informational | unknown
deriving Repr, DecidableEq

inductive UrgencyLevel where
  | green | yellow | red
deriving Repr, DecidableEq

structure KeywordMatch where
  keyword : String
  category : LetterCategory
  weight : Nat
  context : String
deriving Repr, DecidableEq

structure ScoringResult where
  urgency : UrgencyLevel
  score : Nat
  category : LetterCategory
  categoryLabel : String
  «matches» : List KeywordMatch
  summary : String
  recommendations : List String
deriving Repr, DecidableEq

/-! ## Pattern dictionary (src/lib/scoring/context.ts) -/

structure NegationPattern where
  pattern : List Tok
  name : String
deriving Repr, DecidableEq

structure MitigationPattern where
  pattern : List Tok
  /-- the reduction fraction, stored as a percentage (0.5 ↦ 50) -/
  reductionPct : Nat
  name : String
deriving Repr, DecidableEq

def lit (s : String) : Tok := .lit s.data

def STRONG_NEGATORS : List NegationPattern :=
  [ ⟨[lit "nicht"], "nicht"⟩,
    ⟨[lit "keine", .opt ['n', 'm', 'r', 's']], "keine"⟩,
    ⟨[lit "keinerlei"], "keinerlei"⟩,
    ⟨[lit "niemals"], "niemals"⟩,
    ⟨[lit "weder"], "weder"⟩,
    ⟨[lit "ohne"], "ohne"⟩,
    ⟨[lit "nicht", .ws, lit "mehr"], "nicht mehr"⟩ ]

def CANCELLATION_VERBS : List NegationPattern :=
  [ ⟨[lit "aufgehoben"], "aufgehoben"⟩,
    ⟨[lit "widerrufen"], "widerrufen"⟩,
    ⟨[lit "zur", .cls ['ü', 'u'], lit "ckgenommen"], "zurückgenommen"⟩,
    ⟨[lit "eingestellt"], "eingestellt"⟩,
    ⟨[lit "erledigt"], "erledigt"⟩,
    ⟨[lit "beendet"], "beendet"⟩,
    ⟨[lit "abgeschlossen"], "abgeschlossen"⟩ ]

def REJECTION_PATTERNS : List NegationPattern :=
  [ ⟨[lit "abgelehnt"], "abgelehnt"⟩,
    ⟨[lit "nicht", .ws, lit "erteilt"], "nicht erteilt"⟩,
    ⟨[lit "wird", .ws, lit "nicht"], "wird nicht"⟩,
    ⟨[lit "nicht", .ws, lit "vorgesehen"], "nicht vorgesehen"⟩,
    ⟨[lit "entf", .cls ['ä', 'a'], lit "llt"], "entfällt"⟩,
    ⟨[lit "nicht", .ws, lit "erforderlich"], "nicht erforderlich"⟩ ]

def INFORMATIONAL_MARKERS : List MitigationPattern :=
  [ ⟨[lit "zur", .ws, lit "kenntnis"], 50, "zur Kenntnis"⟩,
    ⟨[lit "zur", .ws, lit "information"], 50, "zur Information"⟩,
    ⟨[lit "hinweis"], 30, "Hinweis"⟩,
    ⟨[lit "mitteilung"], 30, "Mitteilung"⟩,
    ⟨[lit "kein", .ws, lit "handlungsbedarf"], 90, "kein Handlungsbedarf"⟩,
    ⟨[lit "keine", .ws, lit "weiteren", .ws, lit "schritte"], 90,
      "keine weiteren Schritte"⟩,
    ⟨[lit "ohne", .ws, lit "weitere", .ws, lit "ma", .cls ['ß', 's'],
       lit "nahmen"], 70, "ohne weitere Maßnahmen"⟩ ]

def CONDITIONAL_MARKERS : List MitigationPattern :=
  [ ⟨[lit "falls"], 40, "falls"⟩,
    ⟨[lit "sofern"], 40, "sofern"⟩,
    ⟨[lit "wenn", .ws, lit "nicht"], 30, "wenn nicht"⟩,
    ⟨[lit "w", .cls ['ü', 'u'], lit "rde"], 50, "würde"⟩,
    ⟨[lit "k", .cls ['ö', 'o'], lit "nnte"], 50, "könnte"⟩ ]

def EXCLUSION_PATTERNS : List MitigationPattern :=
  [ ⟨[lit "beschluss"], 60, "Beschluss"⟩,
    ⟨[lit "anordnung"], 60, "Anordnung"⟩,
    ⟨[lit "weisunge", .opt ['n']], 60, "Weisung"⟩,
    ⟨[lit "verfahrenskoordination"], 60, "Verfahrenskoordination"⟩,
    ⟨[lit "verwaltungsakt"], 50, "Verwaltungsakt"⟩,
    ⟨[lit "aktennotiz"], 70, "Aktennotiz"⟩ ]

/-! ## Keyword dictionary (src/lib/scoring/keywords.ts) -/

structure KeywordDefinition where
  keyword : String
  category : LetterCategory
  urgency : UrgencyLevel
  weight : Nat
deriving Repr, DecidableEq

def RED_KEYWORDS : List KeywordDefinition :=
  [ ⟨"zwangsvollstreckung", .enforcement, .red, 100⟩,
    ⟨"vollstreckung", .enforcement, .red, 90⟩,
    ⟨"erzwingungshaft", .enforcement, .red, 100⟩,
    ⟨"haftbefehl", .enforcement, .red, 100⟩,
    ⟨"pfändung", .enforcement, .red, 90⟩,
    ⟨"gerichtsvollzieher", .enforcement, .red, 85⟩,
    ⟨"vollstreckungsbehörde", .enforcement, .red, 95⟩,
    ⟨"zwangsmaßnahme", .enforcement, .red, 90⟩,
    ⟨"kontopfändung", .enforcement, .red, 90⟩,
    ⟨"lohnpfändung", .enforcement, .red, 90⟩,
    ⟨"räumungsklage", .enforcement, .red, 95⟩,
    ⟨"zwangsräumung", .enforcement, .red, 100⟩ ]

def YELLOW_KEYWORDS : List KeywordDefinition :=
  [ ⟨"letzte mahnung", .final_notice, .yellow, 80⟩,
    ⟨"letzte zahlungsaufforderung", .final_notice, .yellow, 80⟩,
    ⟨"zahlungserinnerung", .payment_reminder, .yellow, 60⟩,
    ⟨"mahnung", .payment_reminder, .yellow, 65⟩,
    ⟨"mahngebühren", .payment_reminder, .yellow, 55⟩,
    ⟨"verzugszinsen", .payment_reminder, .yellow, 55⟩,
    ⟨"inkasso", .final_notice, .yellow, 75⟩,
    ⟨"rechtliche schritte", .final_notice, .yellow, 70⟩,
    ⟨"gerichtliche schritte", .final_notice, .yellow, 75⟩,
    ⟨"frist", .payment_reminder, .yellow, 50⟩,
    ⟨"fristablauf", .payment_reminder, .yellow, 60⟩,
    ⟨"säumniszuschlag", .payment_reminder, .yellow, 55⟩,
    ⟨"zahlungspflichtig", .payment_reminder, .yellow, 50⟩,
    ⟨"offene forderung", .payment_reminder, .yellow, 55⟩,
    ⟨"ausstehende zahlung", .payment_reminder, .yellow, 55⟩,
    ⟨"bitte überweisen", .payment_reminder, .yellow, 40⟩,
    ⟨"bitte begleichen", .payment_reminder, .yellow, 45⟩ ]

def GREEN_KEYWORDS : List KeywordDefinition :=
  [ ⟨"informieren", .informational, .green, 30⟩,
    ⟨"zur information", .informational, .green, 35⟩,
    ⟨"zu ihrer information", .informational, .green, 35⟩,
    ⟨"erfolgreich", .informational, .green, 40⟩,
    ⟨"bestätigung", .informational, .green, 35⟩,
    ⟨"bestätigt", .informational, .green, 35⟩,
    ⟨"keine weiteren schritte", .informational, .green, 50⟩,
    ⟨"kein handlungsbedarf", .informational, .green, 50⟩,
    ⟨"abgeschlossen", .informational, .green, 35⟩,
    ⟨"erledigt", .informational, .green, 40⟩,
    ⟨"eingetragen", .informational, .green, 30⟩,
    ⟨"aktualisiert", .informational, .green, 30⟩ ]

def ALL_KEYWORDS : List KeywordDefinition :=
  RED_KEYWORDS ++ YELLOW_KEYWORDS ++ GREEN_KEYWORDS

def CATEGORY_LABELS : LetterCategory → String
  | .enforcement => "Vollstreckungsbescheid"
  | .final_notice => "Letzte Mahnung"
  | .payment_reminder => "Zahlungserinnerung"
  | .informational => "Informationsschreiben"
  | .unknown => "Unbekannt"

/-! ## Sentence segmentation (src/lib/scoring/context.ts) -/

/-- The contrastive conjunctions of
`/\b(aber|jedoch|allerdings|dennoch|trotzdem)\b/gi`. -/
def CONTRASTIVE_CONJUNCTIONS : List (List Char) :=
  ["aber".data, "jedoch".data, "allerdings".data, "dennoch".data,
   "trotzdem".data]

/-- Which contrastive conjunction matches at the head of `cs` with a `\b`
after it (the `\b` before is checked by the caller).  Returns its length. -/
def conjAt (cs : List Char) : Option Nat :=
  (CONTRASTIVE_CONJUNCTIONS.find? fun w =>
      isPreCI w cs &&
        match cs.drop w.length with
        | [] => true
        | c :: _ => !isWordChar c).map List.length

/-- `text.replace(CONTRASTIVE_CONJUNCTIONS, ". $1")`: insert a sentence break
before every word-bounded contrastive conjunction, keeping the original
conjunction text. -/
def contrastiveGo : Nat → Option Char → List Char → List Char
  | 0, _, cs => cs
  | _ + 1, _, [] => []
  | fuel + 1, prev, c :: rest =>
    match (if boundaryBefore prev then conjAt (c :: rest) else none) with
    | some n =>
      '.' :: ' ' :: ((c :: rest).take n
        ++ contrastiveGo fuel (some (((c :: rest).take n).getLastD c))
             ((c :: rest).drop n))
    | none => c :: contrastiveGo fuel (some c) rest

def contrastiveReplace (cs : List Char) : List Char :=
  contrastiveGo cs.length none cs

/-- A match of the delimiter regex `/[.!?;]\s+|\n\n+/` at the head of `cs`:
returns the length of the (greedy) match. -/
def delimLen (cs : List Char) : Option Nat :=
  match cs with
  | [] => none
  | c :: rest =>
    if ['.', '!', '?', ';'].contains c then
      if 1 ≤ wsCount rest then some (1 + wsCount rest) else none
    else if c == '\n' && 2 ≤ nlCount cs then some (nlCount cs)
    else none

/-- `String.prototype.split` on the delimiter regex (keeps empty pieces, as
JS does; the engine filters them afterwards). -/
def splitGo : Nat → List Char → List Char → List (List Char)
  | 0, acc, cs => [acc.reverse ++ cs]
  | _ + 1, acc, [] => [acc.reverse]
  | fuel + 1, acc, c :: rest =>
    match delimLen (c :: rest) with
    | some n => acc.reverse :: splitGo fuel [] ((c :: rest).drop n)
    | none => splitGo fuel (c :: acc) rest

def splitOnDelimiters (cs : List Char) : List (List Char) :=
  splitGo (cs.length + 1) [] cs

/-- `splitIntoSentences` from src/lib/scoring/context.ts. -/
def splitIntoSentences (text : String) : List String :=
  (((splitOnDelimiters (contrastiveReplace text.data)).map jsTrimL).filter
      (fun l => !l.isEmpty)).map String.mk

/-! ## Context window extraction (src/lib/scoring/context.ts) -/

/-- `String.prototype.split(/\s+/)` keeping empty pieces (JS yields a leading
or trailing `""` when the string starts or ends with whitespace, and `[""]`
on the empty string). -/
def splitWsGo (fuel : Nat) (acc : List Char) (cs : List Char) :
    List (List Char) :=
  match fuel with
  | 0 => [acc.reverse ++ cs]
  | fuel + 1 =>
    if 1 ≤ wsCount cs then
      acc.reverse :: splitWsGo fuel [] (cs.drop (wsCount cs))
    else
      match cs with
      | [] => [acc.reverse]
      | c :: rest => splitWsGo fuel (c :: acc) rest

def splitWs (cs : List Char) : List (List Char) :=
  splitWsGo (cs.length + 1) [] cs

/-- `tokenize`: lowercase, split on whitespace, drop empty tokens. -/
def tokenize (sentence : String) : List (List Char) :=
  (splitWs (lowerL sentence.data)).filter (fun w => !w.isEmpty)

/-- `getContextWindow`: ±`windowSize` tokens around the keyword span, joined
with single spaces. -/
def getContextWindow (tokens : List (List Char)) (keywordStartIndex
    keywordLength : Nat) (windowSize : Nat := 5) : List Char :=
  let start := keywordStartIndex - windowSize
  let stop := min tokens.length (keywordStartIndex + keywordLength + windowSize)
  List.intercalate [' '] ((tokens.take stop).drop start)

/-- `findKeywordTokenIndex`: first token that contains the keyword's first
whitespace-separated word as a substring. -/
def findKeywordTokenIndex (tokens : List (List Char)) (keyword : String) :
    Option Nat :=
  let keywordFirst := (splitWs (lowerL keyword.data)).headD []
  tokens.findIdx? (fun t => containsL t keywordFirst)

/-! ## Context evaluation (src/lib/scoring/context.ts) -/

structure EvaluatedKeyword where
  keyword : String
  category : LetterCategory
  originalWeight : Nat
  effectiveWeight : Nat
  reason : String
  isNeutralized : Bool
  context : String
deriving Repr, DecidableEq

/-- Which rule of `evaluateKeywordInContext` fires (the source returns from
the first matching rule; this inductive records that choice). -/
inductive CtxDecision where
  | negated (p : NegationPattern)
  | cancelled (p : NegationPattern)
  | rejected (p : NegationPattern)
  | informational (m : MitigationPattern)
  | conditional (m : MitigationPattern)
  | direct
deriving Repr, DecidableEq

/-- Fueled base-2 logarithm (floor), kernel-reducible; 128 units of fuel
cover every number below `2^129`, far beyond any product the engine
forms. -/
def log2F : Nat → Nat → Nat
  | 0, _ => 0
  | fuel + 1, n => if n ≤ 1 then 0 else log2F fuel (n / 2) + 1

/-- Round the integer `a` to 53 significant bits by dropping its `sh` low
bits, rounding to nearest with ties to even (the IEEE binary64 rounding of
the significand). -/
def flMantissa (a sh : Nat) : Nat :=
  if 2 ^ sh < 2 * (a % 2 ^ sh) then a / 2 ^ sh + 1
  else if 2 * (a % 2 ^ sh) < 2 ^ sh then a / 2 ^ sh
  else if (a / 2 ^ sh) % 2 = 0 then a / 2 ^ sh else a / 2 ^ sh + 1

/-- The integer `a` rounded to at most 53 significant bits — the numerator
of the IEEE binary64 double nearest to `a / 2^k` (over the same denominator
`2^k`).  Values that already fit in 53 bits are exact; no overflow or
subnormal range is reachable for the products the engine forms. -/
def flNum (a : Nat) : Nat :=
  if log2F 128 a ≤ 52 then a
  else flMantissa a (log2F 128 a - 52) * 2 ^ (log2F 128 a - 52)

/-- ECMAScript `Math.round` of the binary64 double nearest to the dyadic
rational `a / 2^k` (with `k ≥ 1`): the double's exact value is
`flNum a / 2^k`, and `Math.round` takes the closest integer with half-way
cases toward `+∞`, i.e. `⌊(flNum a + 2^(k-1)) / 2^k⌋`. -/
def roundDyadic (a k : Nat) : Nat := (flNum a + 2 ^ (k - 1)) / 2 ^ k

/-- `round(w × (1 − reduction))` read as exact arithmetic: round-half-up of
`w · (100 − pct) / 100`.  This is the spec's formula; the program's IEEE
evaluation (`reducedWeight`) differs from it at some reachable inputs. -/
def exactRoundedReduction (w pct : Nat) : Nat := (w * (100 - pct) + 50) / 100

/-- `Math.round(originalWeight * (1 - marker.reduction))` exactly as the
engine computes it in IEEE binary64 arithmetic.  The reductions stored in
the pattern tables are the double literals 0.3, 0.4, 0.5, 0.6, 0.7, 0.9;
the branches below multiply `w` by the *exact value* of the double
`1 - reduction`:
`1 - 0.3 = 3152519739159347 / 2^52` (0.69999999999999995…),
`1 - 0.4 = 5404319552844595 / 2^53` (0.59999999999999997…),
`1 - 0.5 = 1 / 2` (exact),
`1 - 0.6 = 3602879701896397 / 2^53` (0.40000000000000002…),
`1 - 0.7 = 1351079888211149 / 2^52` (0.30000000000000004…),
`1 - 0.9 = 900719925474099 / 2^53` (0.09999999999999997…),
round the product to binary64 and apply `Math.round` to its exact value.
For reduction percentages no pattern carries (hence never reaching this
function) the exact formula is used. -/
def reducedWeight (w pct : Nat) : Nat :=
  if pct = 30 then roundDyadic (w * 3152519739159347) 52
  else if pct = 40 then roundDyadic (w * 5404319552844595) 53
  else if pct = 50 then roundDyadic (w * 1) 1
  else if pct = 60 then roundDyadic (w * 3602879701896397) 53
  else if pct = 70 then roundDyadic (w * 1351079888211149) 52
  else if pct = 90 then roundDyadic (w * 900719925474099) 53
  else exactRoundedReduction w pct

/-- The ±5-token window text used by rules 1, 3 and 5 (falls back to the
whole lowercased sentence when the keyword's first token is not found). -/
def windowTextOf (sentence keyword : String) : List Char :=
  let tokens := tokenize sentence
  let keywordLength := (splitWs keyword.data).length
  match findKeywordTokenIndex tokens keyword with
  | some i => getContextWindow tokens i keywordLength 5
  | none => lowerL sentence.data

/-- The rule cascade of `evaluateKeywordInContext` (rules 1–6 in order,
first match terminal). -/
def evalCtxDecision (sentence keyword : String) : CtxDecision :=
  match STRONG_NEGATORS.find?
      (fun n => testPat n.pattern (windowTextOf sentence keyword)) with
  | some n => .negated n
  | none =>
    match CANCELLATION_VERBS.find?
        (fun v => testPat v.pattern (lowerL sentence.data)) with
    | some v => .cancelled v
    | none =>
      match REJECTION_PATTERNS.find?
          (fun p => testPat p.pattern (windowTextOf sentence keyword)) with
      | some p => .rejected p
      | none =>
        match INFORMATIONAL_MARKERS.find?
            (fun m => testPat m.pattern (lowerL sentence.data)) with
        | some m => .informational m
        | none =>
          match CONDITIONAL_MARKERS.find?
              (fun m => testPat m.pattern (windowTextOf sentence keyword)) with
          | some m => .conditional m
          | none => .direct

/-- The 30-characters-each-side display context (`...` wrapped); purely for
human review, never used by the rules. -/
def displayContextOf (sentence keyword : String) : String :=
  let lowerSentence := lowerL sentence.data
  let keywordPos : Int := jsIndexOf lowerSentence (lowerL keyword.data)
  let contextStart : Int := max 0 (keywordPos - 30)
  let contextEnd : Int :=
    min (sentence.data.length : Int) (keywordPos + keyword.data.length + 30)
  "..." ++ String.mk (jsTrimL (jsSubstringL sentence.data contextStart
    contextEnd)) ++ "..."

/-- `evaluateKeywordInContext` from src/lib/scoring/context.ts. -/
def evaluateKeywordInContext (sentence keyword : String)
    (category : LetterCategory) (originalWeight : Nat) : EvaluatedKeyword :=
  let context := displayContextOf sentence keyword
  match evalCtxDecision sentence keyword with
  | .negated n =>
    ⟨keyword, category, originalWeight, 0,
      "Negiert durch \"" ++ n.name ++ "\"", true, context⟩
  | .cancelled v =>
    ⟨keyword, category, originalWeight, 0,
      "Aufgehoben/Erledigt: \"" ++ v.name ++ "\"", true, context⟩
  | .rejected p =>
    ⟨keyword, category, originalWeight, 0,
      "Abgelehnt: \"" ++ p.name ++ "\"", true, context⟩
  | .informational m =>
    ⟨keyword, category, originalWeight, reducedWeight originalWeight
        m.reductionPct,
      "Nur zur Information: \"" ++ m.name ++ "\" (-"
        ++ toString m.reductionPct ++ "%)", false, context⟩
  | .conditional m =>
    ⟨keyword, category, originalWeight, reducedWeight originalWeight
        m.reductionPct,
      "Bedingt: \"" ++ m.name ++ "\" (-" ++ toString m.reductionPct ++ "%)",
      false, context⟩
  | .direct =>
    ⟨keyword, category, originalWeight, originalWeight,
      "Direkte/handlungsrelevante Aussage", false, context⟩

/-! ## Betreff (subject line) evaluation (src/lib/scoring/context.ts)

`evaluateBetreffKeywordWithBodyContext` builds four regexes of the shape
`A[^.]*B` from the keyword.  The alternation groups contain only literal
words (the class `keine[nmrs]?` is expanded into its five literal forms,
which have the same `\b`-anchored matches), so a match of `A[^.]*B` exists
iff some occurrence of `A` is followed, with no `'.'` in between, by some
occurrence of `B`. -/

/-- The group `(nicht|keine[nmrs]?|niemals)` expanded into literals. -/
def NEG_GROUP_WORDS : List (List Char) :=
  ["nicht".data, "keine".data, "keinen".data, "keinem".data, "keiner".data,
   "keines".data, "niemals".data]

/-- The group `(wird nicht|nicht erteilt|nicht vorgesehen|entfällt|abgelehnt)`
(spaces are literal single spaces in the constructed regex). -/
def REJ_GROUP_WORDS : List (List Char) :=
  ["wird nicht".data, "nicht erteilt".data, "nicht vorgesehen".data,
   "entfällt".data, "abgelehnt".data]

/-- Word-bounded literal match at position `j` (`\bw\b`). -/
def litAtB (cs : List Char) (j : Nat) (w : List Char) : Bool :=
  boundaryBefore (if j == 0 then none else cs.drop (j - 1) |>.head?)
    && isPreCI w (cs.drop j)
    && (match cs.drop (j + w.length) with
        | [] => true
        | c :: _ => !isWordChar c)

/-- No `'.'` among positions `[a, b)` of `cs`. -/
def noDotRange (cs : List Char) (a b : Nat) : Bool :=
  ((cs.drop a).take (b - a)).all (fun c => !(c == '.'))

/-- `kw[^.]*\b(group)\b` tested against `cs` (`kw` is a plain substring,
the group words are word-bounded). -/
def kwThenGroupTest (kw : List Char) (group : List (List Char))
    (cs : List Char) : Bool :=
  (List.range (cs.length + 1)).any fun i =>
    isPreCI kw (cs.drop i) &&
      (List.range (cs.length + 1)).any fun j =>
        decide (i + kw.length ≤ j) && noDotRange cs (i + kw.length) j
          && group.any (litAtB cs j)

/-- `\b(group)\b[^.]*kw` (with `bounded := true`) or `(group)[^.]*kw`
(with `bounded := false`, as in the fourth constructed pattern, which has no
`\b`) tested against `cs`. -/
def groupThenKwTest (group : List (List Char)) (bounded : Bool)
    (kw : List Char) (cs : List Char) : Bool :=
  (List.range (cs.length + 1)).any fun j =>
    group.any fun w =>
      (if bounded then litAtB cs j w else isPreCI w (cs.drop j)) &&
        (List.range (cs.length + 1)).any fun i =>
          decide (j + w.length ≤ i) && noDotRange cs (j + w.length) i
            && isPreCI kw (cs.drop i)

/-- Rule 1 of the Betreff evaluation: the four `keywordNegationPatterns`
tested in order against the lowercased body. -/
def keywordNegationTest (lowerKeyword lowerBody : List Char) : Bool :=
  kwThenGroupTest lowerKeyword NEG_GROUP_WORDS lowerBody
    || groupThenKwTest NEG_GROUP_WORDS true lowerKeyword lowerBody
    || kwThenGroupTest lowerKeyword REJ_GROUP_WORDS lowerBody
    || groupThenKwTest REJ_GROUP_WORDS false lowerKeyword lowerBody

/-- Which rule of `evaluateBetreffKeywordWithBodyContext` fires. -/
inductive BetreffDecision where
  | negatedInBody
  | cancelledInBody (v : NegationPattern)
  | negatorInBody (n : NegationPattern)
  | rejectedInBody (p : NegationPattern)
  | exclusion (m : MitigationPattern)
  | informational (m : MitigationPattern)
  | direct
deriving Repr, DecidableEq

/-- The rule cascade of `evaluateBetreffKeywordWithBodyContext`
(rules 1–7 in order, first match terminal). -/
def evalBetreffDecision (keyword bodyText : String) : BetreffDecision :=
  let lowerBody := lowerL bodyText.data
  let lowerKeyword := lowerL keyword.data
  if keywordNegationTest lowerKeyword lowerBody then .negatedInBody
  else
    match CANCELLATION_VERBS.find? (fun v =>
        (splitIntoSentences bodyText).any fun s =>
          containsL (lowerL s.data) lowerKeyword
            && testPat v.pattern (lowerL s.data)) with
    | some v => .cancelledInBody v
    | none =>
      match STRONG_NEGATORS.find? (fun n =>
          testPat n.pattern lowerBody
            && (splitIntoSentences bodyText).any fun s =>
                 testPat n.pattern (lowerL s.data)
                   && containsL (lowerL s.data) lowerKeyword) with
      | some n => .negatorInBody n
      | none =>
        match REJECTION_PATTERNS.find? (fun p =>
            testPat p.pattern lowerBody
              && (splitIntoSentences bodyText).any fun s =>
                   testPat p.pattern (lowerL s.data)
                     && containsL (lowerL s.data) lowerKeyword) with
        | some p => .rejectedInBody p
        | none =>
          match EXCLUSION_PATTERNS.find?
              (fun e => testPat e.pattern bodyText.data) with
          | some e => .exclusion e
          | none =>
            match INFORMATIONAL_MARKERS.find?
                (fun m => testPat m.pattern lowerBody) with
            | some m => .informational m
            | none => .direct

/-- `evaluateBetreffKeywordWithBodyContext` from src/lib/scoring/context.ts. -/
def evaluateBetreffKeywordWithBodyContext (keyword : String)
    (category : LetterCategory) (originalWeight : Nat)
    (betreffLine bodyText : String) : EvaluatedKeyword :=
  let context := "Betreff: "
    ++ String.mk (jsSubstringL betreffLine.data 0 50) ++ "..."
  match evalBetreffDecision keyword bodyText with
  | .negatedInBody =>
    ⟨keyword, category, originalWeight, 0, "Betreff-Keyword im Body negiert",
      true, context⟩
  | .cancelledInBody v =>
    ⟨keyword, category, originalWeight, 0,
      "Betreff-Keyword im Body aufgehoben: \"" ++ v.name ++ "\"", true,
      context⟩
  | .negatorInBody n =>
    ⟨keyword, category, originalWeight, 0,
      "Betreff-Keyword negiert: \"" ++ n.name ++ "\"", true, context⟩
  | .rejectedInBody p =>
    ⟨keyword, category, originalWeight, 0,
      "Betreff-Keyword abgelehnt: \"" ++ p.name ++ "\"", true, context⟩
  | .exclusion m =>
    ⟨keyword, category, originalWeight,
      reducedWeight originalWeight m.reductionPct,
      "Betreff in Verwaltungskontext: \"" ++ m.name ++ "\" (-"
        ++ toString m.reductionPct ++ "%)", false, context⟩
  | .informational m =>
    ⟨keyword, category, originalWeight,
      reducedWeight originalWeight m.reductionPct,
      "Betreff zur Information: \"" ++ m.name ++ "\" (-"
        ++ toString m.reductionPct ++ "%)", false, context⟩
  | .direct =>
    ⟨keyword, category, originalWeight, originalWeight,
      "Betreff: Keine neutralisierende Kontext im Body", false, context⟩

/-! ## Betreff line detection (scoring engine and highlighter)

The three patterns `/Betreff:?\s*(.+?)(?:\n|$)/i` etc. are embedded with
exact leftmost-match and backtracking semantics: the optional `:` and the
greedy `\s*` backtrack so that the lazy `(.+?)` can start at a
non-newline character; the capture then extends to the next newline or the
end of the string. -/

/-- The `\s*(.+?)(?:\n|$)` tail, starting at position `j`.  Returns
`(captureStart, captureEnd, matchEnd)`. -/
def betreffTail (cs : List Char) (j : Nat) : Option (Nat × Nat × Nat) :=
  let m := wsCount (cs.drop j)
  match (List.range (m + 1)).reverse.find? (fun k =>
      match (cs.drop (j + k)).head? with
      | some c => !(c == '\n')
      | none => false) with
  | none => none
  | some k =>
    let s0 := j + k
    let cap := (cs.drop s0).takeWhile (fun c => !(c == '\n'))
    let e := s0 + cap.length
    some (s0, e, if (cs.drop e).head?.isSome then e + 1 else e)

/-- Match one Betreff pattern (`w` then optional `:` then the tail) at
position `i`. -/
def betreffMatchAt (w cs : List Char) (i : Nat) : Option (Nat × Nat × Nat) :=
  if isPreCI w (cs.drop i) then
    let j := i + w.length
    match (if (cs.drop j).head? == some ':' then betreffTail cs (j + 1)
           else none) with
    | some r => some r
    | none => betreffTail cs j
  else none

/-- Leftmost match of one Betreff pattern:
`(index, captureStart, captureEnd, matchEnd)`. -/
def betreffScan (w cs : List Char) : Option (Nat × Nat × Nat × Nat) :=
  (List.range (cs.length + 1)).findSome? fun i =>
    (betreffMatchAt w cs i).map fun r => (i, r)

/-- The result of `extractBetreffAndBody` (the highlighter's variant also
records the position data; the scoring engine ignores it). -/
structure BetreffExtraction where
  betreff : String
  body : String
  betreffStart : Nat
  betreffEnd : Nat
deriving Repr, DecidableEq

def BETREFF_WORDS : List (List Char) :=
  ["betreff".data, "betr.".data, "bezug".data]

/-- `extractBetreffAndBody`: try the three subject-line patterns in order;
on a match, the trimmed capture is the Betreff line and the text with the
whole match removed (first occurrence of the matched substring) is the
body. -/
def extractBetreffAndBody (text : String) : Option BetreffExtraction :=
  BETREFF_WORDS.findSome? fun w =>
    (betreffScan w text.data).map fun r =>
      let i := r.1
      let capS := r.2.1
      let capE := r.2.2.1
      let mEnd := r.2.2.2
      let match0 := (text.data.take mEnd).drop i
      let match1 := (text.data.take capE).drop capS
      let betreffLine := jsTrimL match1
      let betreffStart := i + ((occFrom match1 match0 0).getD 0)
      ⟨String.mk betreffLine,
       String.mk (jsTrimL (replaceFirstL text.data match0 [])),
       betreffStart, betreffStart + betreffLine.length⟩

/-! ## Match collection (main scoring engine) -/

structure ExtendedKeywordMatch where
  keyword : String
  category : LetterCategory
  weight : Nat
  context : String
  originalWeight : Nat
  effectiveWeight : Nat
  isNeutralized : Bool
  reason : String
deriving Repr, DecidableEq

def toExtendedMatch (ev : EvaluatedKeyword) : ExtendedKeywordMatch :=
  ⟨ev.keyword, ev.category, ev.effectiveWeight, ev.context,
   ev.originalWeight, ev.effectiveWeight, ev.isNeutralized, ev.reason⟩

/-- `findKeywordMatchesInSentence`: every dictionary keyword found in the
lowercased sentence, evaluated in context. -/
def findKeywordMatchesInSentence (sentence : String) :
    List ExtendedKeywordMatch :=
  ALL_KEYWORDS.flatMap fun kd =>
    if containsL (lowerL sentence.data) kd.keyword.data then
      [toExtendedMatch
        (evaluateKeywordInContext sentence kd.keyword kd.category kd.weight)]
    else []

/-- `findBetreffKeywordMatches`: every dictionary keyword found in the
Betreff line, evaluated against the body context. -/
def findBetreffKeywordMatches (betreffLine bodyText : String) :
    List ExtendedKeywordMatch :=
  ALL_KEYWORDS.flatMap fun kd =>
    if containsL (lowerL betreffLine.data) kd.keyword.data then
      [toExtendedMatch
        (evaluateBetreffKeywordWithBodyContext kd.keyword kd.category
          kd.weight betreffLine bodyText)]
    else []

/-- `findKeywordMatchesWithContext`: the Match Collector. -/
def findKeywordMatchesWithContext (text : String) :
    List ExtendedKeywordMatch :=
  match extractBetreffAndBody text with
  | some e =>
    findBetreffKeywordMatches e.betreff e.body
      ++ (splitIntoSentences e.body).flatMap findKeywordMatchesInSentence
  | none => (splitIntoSentences text).flatMap findKeywordMatchesInSentence

/-! ## Category determination and score (main scoring engine) -/

/-- The enumeration order of `Object.entries(categoryScores)` in
`determinePrimaryCategory` (record-literal insertion order). -/
def CATEGORY_ORDER : List LetterCategory :=
  [.enforcement, .final_notice, .payment_reminder, .informational, .unknown]

/-- `determinePrimaryCategory`: highest sum of effective weights over active
matches; `informational` when no active match exists; ties keep the earlier
category (strict `>` updates). -/
def determinePrimaryCategory (ms : List ExtendedKeywordMatch) :
    LetterCategory :=
  let activeMatches := ms.filter (fun m => !m.isNeutralized)
  if activeMatches.isEmpty then .informational
  else
    let catScore (c : LetterCategory) : Nat :=
      ((activeMatches.filter (fun m => m.category == c)).map
        (·.effectiveWeight)).sum
    (CATEGORY_ORDER.foldl
      (fun (best : Nat × LetterCategory) c =>
        if catScore c > best.1 then (catScore c, c) else best)
      (0, .unknown)).2

/-- `getDeadlineMultiplier` (src/lib/scoring/rules.ts), as an exact
fraction: 1.5 ↦ 3/2, 1.25 ↦ 5/4, 1.1 ↦ 11/10, 1 ↦ 1/1. -/
def getDeadlineMultiplier (days : Option Int) : Nat × Nat :=
  match days with
  | none => (1, 1)
  | some d =>
    if d ≤ 3 then (3, 2)
    else if d ≤ 7 then (5, 4)
    else if d ≤ 14 then (11, 10)
    else (1, 1)

/-- `Math.round(w * mult)` for a fraction `mult = a/b` with even (or 1)
denominator: exact round-half-up `⌊(a·w + b/2) / b⌋`.  For the integer
weights and fractions used here this agrees with IEEE double
`Math.round`. -/
def jsRoundTimes (w : Nat) (m : Nat × Nat) : Nat :=
  (m.1 * w + m.2 / 2) / m.2

/-- `Math.max(...list)` over a list known to be nonempty (all weights are
nonnegative, so the fold from 0 is the maximum). -/
def listMax (l : List Nat) : Nat := l.foldl max 0

def isRedKeywordName (kw : String) : Bool :=
  RED_KEYWORDS.any (fun k => k.keyword == kw)

def isYellowKeywordName (kw : String) : Bool :=
  YELLOW_KEYWORDS.any (fun k => k.keyword == kw)

def isGreenKeywordName (kw : String) : Bool :=
  GREEN_KEYWORDS.any (fun k => k.keyword == kw)

/-- `calculateScoreWithContext`: the Score Aggregator. -/
def calculateScoreWithContext (ms : List ExtendedKeywordMatch)
    (deadlineDays : Option Int) : Nat :=
  let activeMatches := ms.filter (fun m => !m.isNeutralized)
  if activeMatches.isEmpty then 0
  else
    let activeRed := activeMatches.filter (fun m => isRedKeywordName m.keyword)
    if !activeRed.isEmpty then
      min 100 (jsRoundTimes (listMax (activeRed.map (·.effectiveWeight)))
        (getDeadlineMultiplier deadlineDays))
    else
      let activeYellow :=
        activeMatches.filter (fun m => isYellowKeywordName m.keyword)
      if !activeYellow.isEmpty then
        min 79 (jsRoundTimes (listMax (activeYellow.map (·.effectiveWeight)))
          (getDeadlineMultiplier deadlineDays))
      else
        let activeGreen :=
          activeMatches.filter (fun m => isGreenKeywordName m.keyword)
        if !activeGreen.isEmpty then
          min 39 (listMax (activeGreen.map (·.effectiveWeight)))
        else 0

/-! ## Rules module (src/lib/scoring/rules.ts) -/

def getUrgencyFromScore (score : Nat) : UrgencyLevel :=
  if score ≥ 80 then .red else if score ≥ 40 then .yellow else .green

def CATEGORY_RECOMMENDATIONS : LetterCategory → List String
  | .enforcement =>
    ["Suchen Sie sofort rechtliche Beratung (z.B. Schuldnerberatung, Rechtsanwalt).",
     "Prüfen Sie die genannte Forderung auf Richtigkeit.",
     "Zahlen Sie keine Barzahlungen an Unbekannte.",
     "Bewahren Sie alle Unterlagen sorgfältig auf.",
     "Reagieren Sie innerhalb der angegebenen Frist."]
  | .final_notice =>
    ["Begleichen Sie die Forderung vor Ablauf der Frist.",
     "Kontaktieren Sie den Absender für eine Ratenzahlung, falls nötig.",
     "Prüfen Sie, ob die Forderung berechtigt ist.",
     "Ignorieren Sie das Schreiben nicht - es drohen weitere Kosten."]
  | .payment_reminder =>
    ["Überprüfen Sie die genannte Rechnung in Ihren Unterlagen.",
     "Begleichen Sie den offenen Betrag zeitnah.",
     "Bei Unklarheiten: Kontaktieren Sie den Absender.",
     "Bewahren Sie den Zahlungsnachweis auf."]
  | .informational =>
    ["Keine sofortigen Maßnahmen erforderlich.",
     "Lesen Sie das Schreiben zur Information.",
     "Heften Sie das Dokument zu Ihren Unterlagen."]
  | .unknown =>
    ["Lesen Sie das Schreiben sorgfältig durch.",
     "Bei Unklarheiten: Kontaktieren Sie den Absender.",
     "Prüfen Sie, ob eine Reaktion erforderlich ist."]

/-- `getArticle`: indefinite article for the category label. -/
def getArticle (category : LetterCategory) : String :=
  match category with
  | .final_notice => "eine"
  | .payment_reminder => "eine"
  | _ => "ein"

/-- `SUMMARY_TEMPLATES`: templated summary per urgency, with special-cased
phrasing for the `unknown` category. -/
def SUMMARY_TEMPLATES (urgency : UrgencyLevel) (category : LetterCategory)
    (label : String) : String :=
  match urgency with
  | .red =>
    if category == .unknown then
      "Der Inhalt dieses Schreibens konnte nicht automatisch klassifiziert werden, die Dringlichkeit wird jedoch als KRITISCH eingestuft."
    else
      "Dies ist " ++ getArticle category ++ " " ++ label
        ++ " mit höchster Dringlichkeit. Es drohen unmittelbare rechtliche Konsequenzen wie Pfändung oder Zwangsvollstreckung."
  | .yellow =>
    if category == .unknown then
      "Der Inhalt dieses Schreibens konnte nicht automatisch klassifiziert werden. Bitte prüfen Sie es manuell auf Fristen."
    else
      "Dies ist " ++ getArticle category ++ " " ++ label
        ++ ". Sie sollten innerhalb der angegebenen Frist reagieren, um weitere Kosten oder rechtliche Schritte zu vermeiden."
  | .green =>
    if category == .unknown then
      "Der Inhalt dieses Schreibens konnte nicht automatisch klassifiziert werden. Es scheint sich jedoch um eine Information ohne sofortigen Handlungsbedarf zu handeln."
    else
      "Dies ist " ++ getArticle category ++ " " ++ label
        ++ ". Es handelt sich um eine Information - keine dringende Reaktion erforderlich."

/-! ## Main analysis function (main scoring engine) -/

/-- The projection of extended matches to the `KeywordMatch` list of the
result (neutralized matches get the reason appended to the context). -/
def toStandardMatch (m : ExtendedKeywordMatch) : KeywordMatch :=
  ⟨m.keyword, m.category, m.effectiveWeight,
   if m.isNeutralized then m.context ++ " [" ++ m.reason ++ "]"
   else m.context⟩

/-- `analyzeText`: the full pipeline.  Of the extracted data only
`deadlineDays` is consumed. -/
def analyzeText (text : String) (deadlineDays : Option Int) : ScoringResult :=
  let ms := findKeywordMatchesWithContext text
  let category := determinePrimaryCategory ms
  let score := calculateScoreWithContext ms deadlineDays
  let urgency := getUrgencyFromScore score
  let categoryLabel := CATEGORY_LABELS category
  ⟨urgency, score, category, categoryLabel, ms.map toStandardMatch,
   SUMMARY_TEMPLATES urgency category categoryLabel,
   CATEGORY_RECOMMENDATIONS category⟩

/-! ## Exception-aware variant (for the totality claim)

`Math.max(...xs)` on an empty array yields `-Infinity` (and any list-index
or max over an empty filtered list would be a genuine partial operation);
the variant below makes every such spot explicitly fallible and is proved
to always return `Except.ok` with the same result as `analyzeText`. -/

def jsMaxE (l : List Nat) : Except String Nat :=
  match l with
  | [] => .error "Math.max of empty list"
  | _ => .ok (listMax l)

def calculateScoreWithContextE (ms : List ExtendedKeywordMatch)
    (deadlineDays : Option Int) : Except String Nat :=
  let activeMatches := ms.filter (fun m => !m.isNeutralized)
  if activeMatches.isEmpty then .ok 0
  else
    let activeRed := activeMatches.filter (fun m => isRedKeywordName m.keyword)
    if !activeRed.isEmpty then do
      let mx ← jsMaxE (activeRed.map (·.effectiveWeight))
      return min 100 (jsRoundTimes mx (getDeadlineMultiplier deadlineDays))
    else
      let activeYellow :=
        activeMatches.filter (fun m => isYellowKeywordName m.keyword)
      if !activeYellow.isEmpty then do
        let mx ← jsMaxE (activeYellow.map (·.effectiveWeight))
        return min 79 (jsRoundTimes mx (getDeadlineMultiplier deadlineDays))
      else
        let activeGreen :=
          activeMatches.filter (fun m => isGreenKeywordName m.keyword)
        if !activeGreen.isEmpty then do
          let mx ← jsMaxE (activeGreen.map (·.effectiveWeight))
          return min 39 mx
        else .ok 0

def analyzeTextE (text : String) (deadlineDays : Option Int) :
    Except String ScoringResult := do
  let ms := findKeywordMatchesWithContext text
  let category := determinePrimaryCategory ms
  let score ← calculateScoreWithContextE ms deadlineDays
  let urgency := getUrgencyFromScore score
  let categoryLabel := CATEGORY_LABELS category
  return ⟨urgency, score, category, categoryLabel, ms.map toStandardMatch,
    SUMMARY_TEMPLATES urgency category categoryLabel,
    CATEGORY_RECOMMENDATIONS category⟩

/-! ## Highlighting engine (src/lib/scoring/highlighter.ts) -/

structure HighlightSpan where
  keyword : String
  start : Nat
  «end» : Nat
  urgency : UrgencyLevel
  category : LetterCategory
  isNeutralized : Bool
  reason : String
  originalWeight : Nat
  effectiveWeight : Nat
  sentenceContext : String
deriving Repr, DecidableEq

structure ActiveCount where
  red : Nat
  yellow : Nat
  green : Nat
deriving Repr, DecidableEq

structure HighlightResult where
  spans : List HighlightSpan
  activeCount : ActiveCount
  neutralizedCount : Nat
deriving Repr, DecidableEq

/-- `getKeywordUrgency`: dictionary tier of a keyword (green fallback). -/
def getKeywordUrgency (keyword : String) : UrgencyLevel :=
  if RED_KEYWORDS.any (fun k => k.keyword == keyword) then .red
  else if YELLOW_KEYWORDS.any (fun k => k.keyword == keyword) then .yellow
  else if GREEN_KEYWORDS.any (fun k => k.keyword == keyword) then .green
  else .green

/-- The scan loop of `findKeywordPositions`: repeated `indexOf` advancing
the search start by one past each hit (hence overlapping occurrences are
found). -/
def kwPosGo (lowerText lowerKw : List Char) (kwLen : Nat) :
    Nat → Nat → List (Nat × Nat)
  | _, 0 => []
  | searchStart, fuel + 1 =>
    if searchStart < lowerText.length then
      match occFrom lowerKw lowerText searchStart with
      | some idx => (idx, idx + kwLen) :: kwPosGo lowerText lowerKw kwLen
          (idx + 1) fuel
      | none => []
    else []

/-- `findKeywordPositions`: all case-insensitive occurrences of a keyword. -/
def findKeywordPositions (text keyword : String) : List (Nat × Nat) :=
  kwPosGo (lowerL text.data) (lowerL keyword.data) keyword.data.length 0
    (text.data.length + 1)

/-- One pass over the positions of one keyword: skip positions whose
absolute offset pair was already processed, emit a span (built by `mk`)
for the others. -/
def spansForPositions (mk : Nat → Nat → HighlightSpan) (base : Nat) :
    List (Nat × Nat) → List (Nat × Nat) →
      List HighlightSpan × List (Nat × Nat)
  | [], processed => ([], processed)
  | (s, t) :: rest, processed =>
    let a := base + s
    let b := base + t
    if processed.contains (a, b) then spansForPositions mk base rest processed
    else
      let r := spansForPositions mk base rest ((a, b) :: processed)
      (mk a b :: r.1, r.2)

/-- Span for a Betreff keyword occurrence. -/
def mkBetreffSpan (kd : KeywordDefinition) (e : BetreffExtraction)
    (a b : Nat) : HighlightSpan :=
  let ev := evaluateBetreffKeywordWithBodyContext kd.keyword kd.category
    kd.weight e.betreff e.body
  ⟨kd.keyword, a, b, getKeywordUrgency kd.keyword, kd.category,
   ev.isNeutralized, ev.reason, ev.originalWeight, ev.effectiveWeight,
   "Betreff: " ++ e.betreff⟩

/-- Span for a keyword occurrence inside a body sentence. -/
def mkSentenceSpan (kd : KeywordDefinition) (sentence : String)
    (a b : Nat) : HighlightSpan :=
  let ev := evaluateKeywordInContext sentence kd.keyword kd.category kd.weight
  ⟨kd.keyword, a, b, getKeywordUrgency kd.keyword, kd.category,
   ev.isNeutralized, ev.reason, ev.originalWeight, ev.effectiveWeight,
   sentence⟩

/-- The keyword loop over the Betreff line. -/
def betreffDefsLoop (e : BetreffExtraction) :
    List KeywordDefinition → List (Nat × Nat) →
      List HighlightSpan × List (Nat × Nat)
  | [], processed => ([], processed)
  | kd :: rest, processed =>
    let r1 := spansForPositions (mkBetreffSpan kd e) e.betreffStart
      (findKeywordPositions e.betreff kd.keyword) processed
    let r2 := betreffDefsLoop e rest r1.2
    (r1.1 ++ r2.1, r2.2)

/-- The keyword loop over one located sentence. -/
def sentenceDefsLoop (sentence : String) (sentenceStart : Nat) :
    List KeywordDefinition → List (Nat × Nat) →
      List HighlightSpan × List (Nat × Nat)
  | [], processed => ([], processed)
  | kd :: rest, processed =>
    let r1 := spansForPositions (mkSentenceSpan kd sentence) sentenceStart
      (findKeywordPositions sentence kd.keyword) processed
    let r2 := sentenceDefsLoop sentence sentenceStart rest r1.2
    (r1.1 ++ r2.1, r2.2)

/-- The body-sentence loop of the Betreff branch: each sentence is searched
from the fixed `bodyStart`; unlocated sentences are skipped. -/
def bodySentencesLoop (text : String) (bodyStart : Nat) :
    List String → List (Nat × Nat) →
      List HighlightSpan × List (Nat × Nat)
  | [], processed => ([], processed)
  | s :: rest, processed =>
    match occFrom s.data text.data bodyStart with
    | none => bodySentencesLoop text bodyStart rest processed
    | some st =>
      let r1 := sentenceDefsLoop s st ALL_KEYWORDS processed
      let r2 := bodySentencesLoop text bodyStart rest r1.2
      (r1.1 ++ r2.1, r2.2)

/-- The sentence loop of the no-Betreff branch: the search start advances
past each located sentence; unlocated sentences are skipped. -/
def mainSentencesLoop (text : String) :
    List String → Nat → List (Nat × Nat) → List HighlightSpan
  | [], _, _ => []
  | s :: rest, searchStart, processed =>
    match occFrom s.data text.data searchStart with
    | none => mainSentencesLoop text rest searchStart processed
    | some st =>
      let r1 := sentenceDefsLoop s st ALL_KEYWORDS processed
      r1.1 ++ mainSentencesLoop text rest (st + s.data.length) r1.2

/-- Stable insertion (into an already sorted list) used to model the
`spans.sort((a, b) => a.start - b.start)` call. -/
def insertSpan (x : HighlightSpan) : List HighlightSpan → List HighlightSpan
  | [] => [x]
  | y :: rest => if y.start ≤ x.start then y :: insertSpan x rest
                 else x :: y :: rest

def sortSpans (l : List HighlightSpan) : List HighlightSpan :=
  l.foldl (fun acc x => insertSpan x acc) []

def finishHighlight (spans : List HighlightSpan) : HighlightResult :=
  let sorted := sortSpans spans
  ⟨sorted,
   ⟨((sorted.filter (fun sp => !sp.isNeutralized)).filter
       (fun sp => sp.urgency == .red)).length,
    ((sorted.filter (fun sp => !sp.isNeutralized)).filter
       (fun sp => sp.urgency == .yellow)).length,
    ((sorted.filter (fun sp => !sp.isNeutralized)).filter
       (fun sp => sp.urgency == .green)).length⟩,
   (sorted.filter (fun sp => sp.isNeutralized)).length⟩

/-- `getHighlightSpans`: the Highlight Projector. -/
def getHighlightSpans (text : String) : HighlightResult :=
  match extractBetreffAndBody text with
  | some e =>
    let r1 := betreffDefsLoop e ALL_KEYWORDS []
    let bodyStart :=
      match occFrom e.body.data text.data 0 with
      | some i => i
      | none => 0
    let r2 := bodySentencesLoop text bodyStart (splitIntoSentences e.body) r1.2
    finishHighlight (r1.1 ++ r2.1)
  | none =>
    finishHighlight (mainSentencesLoop text (splitIntoSentences text) 0 [])

/-! ## The (keyword, tier, isNeutralized) triples compared by the
highlight/score consistency property -/

def spanTriple (sp : HighlightSpan) : String × UrgencyLevel × Bool :=
  (sp.keyword, sp.urgency, sp.isNeutralized)

def highlightTriples (text : String) : List (String × UrgencyLevel × Bool) :=
  (getHighlightSpans text).spans.map spanTriple

def collectorTriples (text : String) : List (String × UrgencyLevel × Bool) :=
  (findKeywordMatchesWithContext text).map
    (fun m => (m.keyword, getKeywordUrgency m.keyword, m.isNeutralized))

/-! ## Spec-side definitions

These follow the wording of the specification (not the code) and are used
to state the refinement-style claims. -/

/-- The deadline multiplier exactly as the spec states it:
`≤3 days → ×1.5; ≤7 → ×1.25; ≤14 → ×1.1; unknown or more → ×1.0`
(as exact fractions). -/
def claimDeadlineMultiplier (days : Option Int) : Nat × Nat :=
  match days with
  | none => (1, 1)
  | some d =>
    if d ≤ 3 then (3, 2)
    else if d ≤ 7 then (5, 4)
    else if d ≤ 14 then (11, 10)
    else (1, 1)

/-- The aggregate score exactly as the claim states it: considering only
non-neutralized matches, if any belongs to the red keyword tier take
`min(100, round(max effectiveWeight among red × multiplier))`; else yellow
with cap 79; else green with cap 39 and no multiplier; else 0. -/
def claimScore (ms : List ExtendedKeywordMatch) (days : Option Int) : Nat :=
  let act := ms.filter (fun m => !m.isNeutralized)
  let redW := (act.filter (fun m => isRedKeywordName m.keyword)).map
    (·.effectiveWeight)
  let yelW := (act.filter (fun m => isYellowKeywordName m.keyword)).map
    (·.effectiveWeight)
  let grnW := (act.filter (fun m => isGreenKeywordName m.keyword)).map
    (·.effectiveWeight)
  if !redW.isEmpty then
    min 100 (jsRoundTimes (listMax redW) (claimDeadlineMultiplier days))
  else if !yelW.isEmpty then
    min 79 (jsRoundTimes (listMax yelW) (claimDeadlineMultiplier days))
  else if !grnW.isEmpty then min 39 (listMax grnW)
  else 0

/-- "deadlineDays increases": pointwise order on known deadlines, with the
unknown deadline as the top element (a later/unknown deadline never raises
the score). -/
def deadlineLe : Option Int → Option Int → Prop
  | _, none => True
  | some a, some b => a ≤ b
  | none, some _ => False

/-- No match of the sentence-delimiter regex anywhere in the string
(the claim's "no '.', '!', '?' or ';' followed by whitespace, and no double
newline"), phrased with the same matcher the splitter uses. -/
def delimFreeFrom : List Char → Bool
  | [] => !(delimLen []).isSome
  | c :: rest => !(delimLen (c :: rest)).isSome && delimFreeFrom rest

def delimFree (s : String) : Bool := delimFreeFrom s.data

/-- No word-bounded occurrence of a contrastive conjunction anywhere in the
string, phrased with the same matcher the conjunction rewriter uses. -/
def conjFreeFrom : Option Char → List Char → Bool
  | prev, [] => !(boundaryBefore prev && (conjAt []).isSome)
  | prev, c :: rest =>
    !(boundaryBefore prev && (conjAt (c :: rest)).isSome)
      && conjFreeFrom (some c) rest

def conjFree (s : String) : Bool := conjFreeFrom none s.data

/-- The §8 scenario text of the subject-line rule-priority claim, and its
body as extracted by `extractBetreffAndBody`. -/
def C5_text : String :=
  "Betreff: Haftbefehl\n\nDies ist eine Aktennotiz zur Verfahrenskoordination, kein Handlungsbedarf."

def C5_body : String :=
  "Dies ist eine Aktennotiz zur Verfahrenskoordination, kein Handlungsbedarf."

/-! ## Helper lemmas -/

theorem filter_not_neutralized_nil {ms : List ExtendedKeywordMatch}
    (h : ∀ m ∈ ms, m.isNeutralized = true) :
    ms.filter (fun m => !m.isNeutralized) = [] := by
  rw [List.filter_eq_nil_iff]
  intro m hm
  simp [h m hm]

theorem score_zero_of_all_neutralized {ms : List ExtendedKeywordMatch}
    (h : ∀ m ∈ ms, m.isNeutralized = true) (d : Option Int) :
    calculateScoreWithContext ms d = 0 := by
  unfold calculateScoreWithContext
  rw [filter_not_neutralized_nil h]
  simp

theorem category_informational_of_all_neutralized
    {ms : List ExtendedKeywordMatch}
    (h : ∀ m ∈ ms, m.isNeutralized = true) :
    determinePrimaryCategory ms = .informational := by
  unfold determinePrimaryCategory
  rw [filter_not_neutralized_nil h]
  simp

/-! ## Claim C2 -/

/-- C2, amended: for every text whose matches are all neutralized —
including the degenerate case of no matches at all (in particular the empty
string) — `analyzeText` returns category `informational` and score 0.  The
original claim's second half is wrong: the no-match case also yields
`informational`, not `unknown` (the code returns `informational` whenever
no active match exists, without distinguishing "all neutralized" from
"none found"). -/
theorem claim_C2_amended (text : String) (deadlineDays : Option Int)
    (h : ∀ m ∈ findKeywordMatchesWithContext text, m.isNeutralized = true) :
    (analyzeText text deadlineDays).category = .informational
      ∧ (analyzeText text deadlineDays).score = 0 :=
  ⟨category_informational_of_all_neutralized h,
   score_zero_of_all_neutralized h deadlineDays⟩

/-- C2, counterexample: the empty string has no keyword match at all, yet
`analyzeText` returns category `informational`, not `unknown` as the claim
demands. -/
theorem claim_C2_counterexample :
    findKeywordMatchesWithContext "" = []
      ∧ (analyzeText "" none).category = .informational
      ∧ (analyzeText "" none).category ≠ .unknown
      ∧ (analyzeText "" none).score = 0 :=
  ⟨rfl, rfl, by decide, rfl⟩

/-- Witness for C2: the amended theorem applied to the empty string. -/
theorem claim_C2_witness :
    (analyzeText "" none).category = .informational
      ∧ (analyzeText "" none).score = 0 :=
  claim_C2_amended "" none (by decide)

/-! ## Claim C5 -/

/-- C5, counterexample: on the scenario text the Subject-Line Handler does
*not* resolve keyword "haftbefehl" via the exclusion pattern "Aktennotiz"
(−70%) and does not yield effectiveWeight 30: the exclusion list is searched
in order and "Verfahrenskoordination" (−60%) fires first, yielding 40. -/
theorem claim_C5_counterexample :
    (evaluateBetreffKeywordWithBodyContext "haftbefehl" .enforcement 100
        "Haftbefehl" C5_body).effectiveWeight = 40
      ∧ (evaluateBetreffKeywordWithBodyContext "haftbefehl" .enforcement 100
          "Haftbefehl" C5_body).effectiveWeight ≠ 30
      ∧ evalBetreffDecision "haftbefehl" C5_body
          ≠ .exclusion ⟨[lit "aktennotiz"], 70, "Aktennotiz"⟩ :=
  ⟨rfl, by decide, by decide⟩

/-- C5, amended: on the scenario text the Subject-Line Handler's evaluation
of keyword "haftbefehl" (base weight 100) resolves via the exclusion pattern
"Verfahrenskoordination" (−60%) — exclusions are checked before the
informational markers, and "Verfahrenskoordination" precedes "Aktennotiz" in
the exclusion list — yielding effectiveWeight = round(100×0.4) = 40 with
isNeutralized = false. -/
theorem claim_C5_amended :
    extractBetreffAndBody C5_text = some ⟨"Haftbefehl", C5_body, 9, 19⟩
      ∧ evalBetreffDecision "haftbefehl" C5_body
          = .exclusion ⟨[lit "verfahrenskoordination"], 60,
              "Verfahrenskoordination"⟩
      ∧ (evaluateBetreffKeywordWithBodyContext "haftbefehl" .enforcement 100
          "Haftbefehl" C5_body).effectiveWeight = reducedWeight 100 60
      ∧ reducedWeight 100 60 = 40
      ∧ (evaluateBetreffKeywordWithBodyContext "haftbefehl" .enforcement 100
          "Haftbefehl" C5_body).isNeutralized = false :=
  ⟨rfl, rfl, rfl, rfl, rfl⟩

/-! ## Claim C9 -/

theorem contrastiveGo_of_conjFree :
    ∀ (cs : List Char) (prev : Option Char) (fuel : Nat),
      conjFreeFrom prev cs = true → cs.length ≤ fuel →
        contrastiveGo fuel prev cs = cs := by
  intro cs
  induction cs with
  | nil => intro prev fuel _ _; cases fuel <;> rfl
  | cons c rest ih =>
    intro prev fuel hfree hlen
    match fuel, hlen with
    | fuel + 1, hlen =>
      rw [conjFreeFrom, Bool.and_eq_true, Bool.not_eq_true'] at hfree
      obtain ⟨h1, h2⟩ := hfree
      have hnone : (if boundaryBefore prev then conjAt (c :: rest) else none)
          = none := by
        cases hb : boundaryBefore prev with
        | false => simp
        | true =>
          rw [hb, Bool.true_and] at h1
          simpa using Option.not_isSome_iff_eq_none.mp (by simp [h1])
      show contrastiveGo (fuel + 1) prev (c :: rest) = c :: rest
      rw [contrastiveGo, hnone]
      rw [ih (some c) fuel h2 (Nat.le_of_succ_le_succ hlen)]

theorem splitGo_of_delimFree :
    ∀ (cs : List Char) (acc : List Char) (fuel : Nat),
      delimFreeFrom cs = true → cs.length ≤ fuel →
        splitGo fuel acc cs = [acc.reverse ++ cs] := by
  intro cs
  induction cs with
  | nil =>
    intro acc fuel _ _
    cases fuel with
    | zero => simp [splitGo]
    | succ fuel => simp [splitGo]
  | cons c rest ih =>
    intro acc fuel hfree hlen
    match fuel, hlen with
    | fuel + 1, hlen =>
      rw [delimFreeFrom, Bool.and_eq_true, Bool.not_eq_true'] at hfree
      obtain ⟨h1, h2⟩ := hfree
      have hnone : delimLen (c :: rest) = none :=
        Option.not_isSome_iff_eq_none.mp (by simp [h1])
      show splitGo (fuel + 1) acc (c :: rest) = _
      rw [splitGo, hnone]
      rw [ih (c :: acc) fuel h2 (Nat.le_of_succ_le_succ hlen)]
      simp

/-- C9, amended: for every input string that contains no sentence delimiter
(no '.', '!', '?' or ';' followed by whitespace and no double newline), *and*
no word-bounded contrastive conjunction ("aber", "jedoch", "allerdings",
"dennoch", "trotzdem"), *and* whose trimmed form is nonempty,
`splitIntoSentences` returns exactly the one-element sequence of the trimmed
input.  The original claim fails on delimiter-free strings containing a
contrastive conjunction (the rewriter inserts a break) and on strings that
trim to the empty string (filtered out entirely). -/
theorem claim_C9_amended (t : String) (hc : conjFree t = true)
    (hd : delimFree t = true) (hne : jsTrimL t.data ≠ []) :
    splitIntoSentences t = [jsTrim t] := by
  unfold splitIntoSentences contrastiveReplace splitOnDelimiters
  rw [contrastiveGo_of_conjFree t.data none t.data.length hc (Nat.le_refl _)]
  rw [splitGo_of_delimFree t.data [] (t.data.length + 1) hd
    (Nat.le_succ _)]
  simp only [List.nil_append, List.reverse_nil, List.map_cons, List.map_nil,
    List.filter]
  rw [show (!(jsTrimL t.data).isEmpty) = true by
    simpa [List.isEmpty_iff] using hne]
  rfl

/-- C9, counterexample: "x aber y" contains no sentence delimiter, yet
segmentation returns two units (a break is inserted before the contrastive
conjunction "aber"); and the empty string (also delimiter-free) yields an
empty sequence rather than a one-element sequence. -/
theorem claim_C9_counterexample :
    delimFree "x aber y" = true
      ∧ jsTrim "x aber y" = "x aber y"
      ∧ splitIntoSentences "x aber y" = ["x", "aber y"]
      ∧ splitIntoSentences "x aber y" ≠ ["x aber y"]
      ∧ delimFree "" = true
      ∧ splitIntoSentences "" = []
      ∧ splitIntoSentences "" ≠ [jsTrim ""] :=
  ⟨rfl, rfl, rfl, by decide, rfl, rfl, by decide⟩

/-- Witness for C9: the amended theorem applied to a concrete
conjunction-free, delimiter-free, nonempty input. -/
theorem claim_C9_witness :
    splitIntoSentences " Letzte Mahnung wegen offener Forderung "
      = [jsTrim " Letzte Mahnung wegen offener Forderung "] :=
  claim_C9_amended " Letzte Mahnung wegen offener Forderung " (by rfl) (by rfl)
    (by decide)

/-! ## Claim C10 -/

theorem log2F_le : ∀ (fuel n : Nat), 1 ≤ n → 2 ^ log2F fuel n ≤ n := by
  intro fuel
  induction fuel with
  | zero => intro n h; simpa [log2F] using h
  | succ fuel ih =>
    intro n h
    rw [log2F]
    split
    · simpa using h
    · rename_i h2
      have ihh := ih (n / 2) (by omega)
      have hpow : 2 ^ (log2F fuel (n / 2) + 1) = 2 * 2 ^ log2F fuel (n / 2) := by
        ring
      rw [hpow]
      omega

theorem flMantissa_mul_le (a sh : Nat) :
    flMantissa a sh * 2 ^ sh ≤ a + 2 ^ sh := by
  have h1 : flMantissa a sh ≤ a / 2 ^ sh + 1 := by
    unfold flMantissa; split_ifs <;> omega
  have h2 : a / 2 ^ sh * 2 ^ sh ≤ a := Nat.div_mul_le_self a _
  have h3 := Nat.mul_le_mul_right (2 ^ sh) h1
  rw [Nat.add_mul, one_mul] at h3
  omega

theorem flNum_le (a : Nat) : flNum a ≤ a + a / 2 ^ 52 := by
  unfold flNum
  split
  · exact Nat.le_add_right a _
  · rename_i hL
    have h1 := flMantissa_mul_le a (log2F 128 a - 52)
    have hpos : 1 ≤ a := by
      rcases Nat.eq_zero_or_pos a with h0 | h0
      · subst h0; exact absurd (by decide : log2F 128 0 ≤ 52) hL
      · exact h0
    have h2 : 2 ^ log2F 128 a ≤ a := log2F_le 128 a hpos
    have h3 : 2 ^ (log2F 128 a - 52) * 2 ^ 52 ≤ a := by
      calc 2 ^ (log2F 128 a - 52) * 2 ^ 52
          = 2 ^ (log2F 128 a - 52 + 52) := by rw [pow_add]
        _ ≤ 2 ^ log2F 128 a := Nat.pow_le_pow_right (by norm_num) (by omega)
        _ ≤ a := h2
    have h4 : 2 ^ (log2F 128 a - 52) ≤ a / 2 ^ 52 :=
      (Nat.le_div_iff_mul_le (by positivity)).mpr h3
    omega

theorem roundFl_le (s k : Nat) (hk : 1 ≤ k) (w : Nat)
    (hb : 4 * (s * (2 ^ 52 + 1)) ≤ 3 * 2 ^ 52 * 2 ^ k) :
    roundDyadic (w * s) k ≤ w := by
  unfold roundDyadic
  have hF : 2 ^ 52 * flNum (w * s) ≤ w * s * (2 ^ 52 + 1) := by
    calc 2 ^ 52 * flNum (w * s)
        ≤ 2 ^ 52 * (w * s + w * s / 2 ^ 52) :=
          Nat.mul_le_mul_left _ (flNum_le (w * s))
      _ = 2 ^ 52 * (w * s) + w * s / 2 ^ 52 * 2 ^ 52 := by ring
      _ ≤ 2 ^ 52 * (w * s) + w * s := by
          have := Nat.div_mul_le_self (w * s) (2 ^ 52)
          omega
      _ = w * s * (2 ^ 52 + 1) := by ring
  have hbw : 4 * (w * s * (2 ^ 52 + 1)) ≤ 3 * 2 ^ 52 * 2 ^ k * w := by
    calc 4 * (w * s * (2 ^ 52 + 1)) = w * (4 * (s * (2 ^ 52 + 1))) := by ring
      _ ≤ w * (3 * 2 ^ 52 * 2 ^ k) := Nat.mul_le_mul_left w hb
      _ = 3 * 2 ^ 52 * 2 ^ k * w := by ring
  have hchain : 2 ^ 52 * (4 * flNum (w * s)) ≤ 2 ^ 52 * (3 * (2 ^ k * w)) := by
    calc 2 ^ 52 * (4 * flNum (w * s)) = 4 * (2 ^ 52 * flNum (w * s)) := by ring
      _ ≤ 4 * (w * s * (2 ^ 52 + 1)) := Nat.mul_le_mul_left _ hF
      _ ≤ 3 * 2 ^ 52 * 2 ^ k * w := hbw
      _ = 2 ^ 52 * (3 * (2 ^ k * w)) := by ring
  have hfour : 4 * flNum (w * s) ≤ 3 * (2 ^ k * w) :=
    Nat.le_of_mul_le_mul_left hchain (by positivity)
  have h2k : 2 ^ k = 2 * 2 ^ (k - 1) := by
    conv_lhs => rw [show k = (k - 1) + 1 by omega]
    ring
  have hEh : 1 ≤ 2 ^ (k - 1) := Nat.one_le_two_pow
  have hlt : flNum (w * s) + 2 ^ (k - 1) < (w + 1) * 2 ^ k := by
    have hexp : (w + 1) * 2 ^ k = 2 ^ k * w + 2 ^ k := by ring
    rw [hexp]
    generalize flNum (w * s) = F at hfour ⊢
    generalize 2 ^ k * w = P at hfour ⊢
    generalize 2 ^ k = E at h2k ⊢
    generalize 2 ^ (k - 1) = Eh at h2k hEh ⊢
    omega
  have hdiv : (flNum (w * s) + 2 ^ (k - 1)) / 2 ^ k < w + 1 :=
    (Nat.div_lt_iff_lt_mul (by positivity)).mpr hlt
  omega

theorem exactRoundedReduction_le (w pct : Nat) :
    exactRoundedReduction w pct ≤ w := by
  unfold exactRoundedReduction
  calc (w * (100 - pct) + 50) / 100
      ≤ (50 + 100 * w) / 100 := by
        apply Nat.div_le_div_right
        have : w * (100 - pct) ≤ w * 100 :=
          Nat.mul_le_mul_left w (Nat.sub_le 100 pct)
        omega
    _ = w := by
        rw [Nat.add_mul_div_left 50 w (by omega)]
        norm_num

theorem reducedWeight_le (w pct : Nat) : reducedWeight w pct ≤ w := by
  unfold reducedWeight
  split_ifs
  · exact roundFl_le 3152519739159347 52 (by norm_num) w (by norm_num)
  · exact roundFl_le 5404319552844595 53 (by norm_num) w (by norm_num)
  · exact roundFl_le 1 1 (by norm_num) w (by norm_num)
  · exact roundFl_le 3602879701896397 53 (by norm_num) w (by norm_num)
  · exact roundFl_le 1351079888211149 52 (by norm_num) w (by norm_num)
  · exact roundFl_le 900719925474099 53 (by norm_num) w (by norm_num)
  · exact exactRoundedReduction_le w pct

/-- C10: for every sentence (or subject line plus body), keyword, category
and base weight, both evaluators return an `EvaluatedKeyword` whose
`originalWeight` is the given base weight, whose `effectiveWeight` is at
most the base weight (and, being a `Nat`, at least 0), and whose
`effectiveWeight` is exactly 0 whenever `isNeutralized` is true. -/
theorem claim_C10 (sentence betreffLine bodyText keyword : String)
    (category : LetterCategory) (w : Nat) :
    ((evaluateKeywordInContext sentence keyword category w).originalWeight = w
      ∧ (evaluateKeywordInContext sentence keyword category w).effectiveWeight
          ≤ w
      ∧ ((evaluateKeywordInContext sentence keyword category w).isNeutralized
            = true →
          (evaluateKeywordInContext sentence keyword category w).effectiveWeight
            = 0))
    ∧ ((evaluateBetreffKeywordWithBodyContext keyword category w betreffLine
          bodyText).originalWeight = w
      ∧ (evaluateBetreffKeywordWithBodyContext keyword category w betreffLine
          bodyText).effectiveWeight ≤ w
      ∧ ((evaluateBetreffKeywordWithBodyContext keyword category w betreffLine
            bodyText).isNeutralized = true →
          (evaluateBetreffKeywordWithBodyContext keyword category w betreffLine
            bodyText).effectiveWeight = 0)) := by
  constructor
  · cases hd : evalCtxDecision sentence keyword <;>
      simp [evaluateKeywordInContext, hd, reducedWeight_le]
  · cases hd : evalBetreffDecision keyword bodyText <;>
      simp [evaluateBetreffKeywordWithBodyContext, hd, reducedWeight_le]

/-! ## Claim C6 -/

theorem ctxDecision_informational_mem {s k : String} {m : MitigationPattern}
    (h : evalCtxDecision s k = .informational m) :
    m ∈ INFORMATIONAL_MARKERS := by
  unfold evalCtxDecision at h
  split at h
  · exact absurd h (by simp)
  split at h
  · exact absurd h (by simp)
  split at h
  · exact absurd h (by simp)
  split at h
  · rename_i hfind
    cases h
    exact List.mem_of_find?_eq_some hfind
  split at h
  · exact absurd h (by simp)
  · exact absurd h (by simp)

theorem ctxDecision_conditional_mem {s k : String} {m : MitigationPattern}
    (h : evalCtxDecision s k = .conditional m) :
    m ∈ CONDITIONAL_MARKERS := by
  unfold evalCtxDecision at h
  split at h
  · exact absurd h (by simp)
  split at h
  · exact absurd h (by simp)
  split at h
  · exact absurd h (by simp)
  split at h
  · exact absurd h (by simp)
  split at h
  · rename_i hfind
    cases h
    exact List.mem_of_find?_eq_some hfind
  · exact absurd h (by simp)

/-- Counterexample to C6 as stated: on "Hinweis: Der Gerichtsvollzieher
kommt." the keyword "gerichtsvollzieher" (dictionary weight 85) resolves via
the informational marker "Hinweis" (−30%), but the engine's IEEE evaluation
`Math.round(85 * (1 - 0.3))` yields 59, not the claimed exact
`round(85 × 0.7) = 60`: the double `1 - 0.3` is slightly below 0.7, the
product is exactly 59.5 − 2⁻⁴⁷ after rounding to binary64, and `Math.round`
takes it down to 59. -/
theorem claim_C6_counterexample :
    evalCtxDecision "Hinweis: Der Gerichtsvollzieher kommt."
        "gerichtsvollzieher"
        = .informational ⟨[lit "hinweis"], 30, "Hinweis"⟩
      ∧ (evaluateKeywordInContext "Hinweis: Der Gerichtsvollzieher kommt."
          "gerichtsvollzieher" .enforcement 85).effectiveWeight = 59
      ∧ exactRoundedReduction 85 30 = 60
      ∧ (59 : Nat) ≠ 60 :=
  ⟨rfl, rfl, rfl, by decide⟩

set_option maxRecDepth 16384 in
/-- C6, amended: whenever the Context Evaluator resolves via an
informational or conditional mitigation rule (for the base weights the
engine actually passes in, i.e. the dictionary weights), the effective
weight is `Math.round(baseWeight × (1 − reduction))` as evaluated in IEEE
binary64 arithmetic — which equals the exact `round(baseWeight × (1 −
reduction))` or falls exactly one below it — the rule's reduction is
strictly below 1.0 (100%), `isNeutralized` is false, and the effective
weight is positive whenever the base weight is. -/
theorem claim_C6_amended (sentence keyword : String)
    (category : LetterCategory) (w : Nat) (m : MitigationPattern)
    (hw : w ∈ ALL_KEYWORDS.map KeywordDefinition.weight)
    (hdec : evalCtxDecision sentence keyword = .informational m
      ∨ evalCtxDecision sentence keyword = .conditional m) :
    (evaluateKeywordInContext sentence keyword category w).effectiveWeight
        = reducedWeight w m.reductionPct
      ∧ (reducedWeight w m.reductionPct
            = exactRoundedReduction w m.reductionPct
          ∨ reducedWeight w m.reductionPct + 1
            = exactRoundedReduction w m.reductionPct)
      ∧ m.reductionPct < 100
      ∧ (evaluateKeywordInContext sentence keyword category
          w).isNeutralized = false
      ∧ (0 < w →
          0 < (evaluateKeywordInContext sentence keyword category
            w).effectiveWeight) := by
  have hmem : m ∈ INFORMATIONAL_MARKERS ∨ m ∈ CONDITIONAL_MARKERS := by
    rcases hdec with h | h
    · exact Or.inl (ctxDecision_informational_mem h)
    · exact Or.inr (ctxDecision_conditional_mem h)
  have hpctmem : m.reductionPct
      ∈ INFORMATIONAL_MARKERS.map MitigationPattern.reductionPct
        ++ CONDITIONAL_MARKERS.map MitigationPattern.reductionPct := by
    rcases hmem with hm | hm
    · exact List.mem_append_left _ (List.mem_map_of_mem _ hm)
    · exact List.mem_append_right _ (List.mem_map_of_mem _ hm)
  have hgrid : ∀ w' ∈ ALL_KEYWORDS.map KeywordDefinition.weight,
      ∀ p ∈ INFORMATIONAL_MARKERS.map MitigationPattern.reductionPct
          ++ CONDITIONAL_MARKERS.map MitigationPattern.reductionPct,
      3 ≤ reducedWeight w' p
        ∧ (reducedWeight w' p = exactRoundedReduction w' p
            ∨ reducedWeight w' p + 1 = exactRoundedReduction w' p)
        ∧ p < 100 := by decide
  obtain ⟨hred3, hdisj, hp100⟩ := hgrid w hw m.reductionPct hpctmem
  refine ⟨?_, hdisj, hp100, ?_, fun _ => ?_⟩
  · rcases hdec with h | h <;> simp [evaluateKeywordInContext, h]
  · rcases hdec with h | h <;> simp [evaluateKeywordInContext, h]
  · rcases hdec with h | h <;> simp [evaluateKeywordInContext, h] <;> omega

/-- Witness for C6: on "Hinweis: eine Mahnung" the evaluation of keyword
"mahnung" (dictionary weight 65) resolves via the informational marker
"Hinweis" (−30%); here the IEEE rounding agrees with the exact one
(both give 46). -/
theorem claim_C6_witness :
    (evaluateKeywordInContext "Hinweis: eine Mahnung" "mahnung"
        .payment_reminder 65).effectiveWeight = reducedWeight 65 30
      ∧ (reducedWeight 65 30 = exactRoundedReduction 65 30
          ∨ reducedWeight 65 30 + 1 = exactRoundedReduction 65 30)
      ∧ (30 : Nat) < 100
      ∧ (evaluateKeywordInContext "Hinweis: eine Mahnung" "mahnung"
          .payment_reminder 65).isNeutralized = false
      ∧ (0 < 65 →
          0 < (evaluateKeywordInContext "Hinweis: eine Mahnung" "mahnung"
            .payment_reminder 65).effectiveWeight) :=
  claim_C6_amended "Hinweis: eine Mahnung" "mahnung" .payment_reminder 65
    ⟨[lit "hinweis"], 30, "Hinweis"⟩ (by decide) (Or.inl (by rfl))

/-! ## Claim C3 -/

theorem multEq (d : Option Int) :
    claimDeadlineMultiplier d = getDeadlineMultiplier d := by
  cases d <;> rfl

/-- C3: for every list of evaluated matches and every deadline, the Score
Aggregator computes exactly the tiered formula of the claim: red matches
(among the non-neutralized ones) → `min(100, round(max effectiveWeight ×
multiplier))`, else yellow with cap 79, else green with cap 39 and no
multiplier, else 0, with the multiplier 3/2, 5/4, 11/10, 1 for deadlines
≤3, ≤7, ≤14, unknown-or-larger respectively. -/
theorem claim_C3 (ms : List ExtendedKeywordMatch) (d : Option Int) :
    calculateScoreWithContext ms d = claimScore ms d := by
  simp only [calculateScoreWithContext, claimScore, multEq d,
    List.map_eq_nil_iff, List.isEmpty_iff]
  by_cases hact : (ms.filter fun m => !m.isNeutralized) = []
  · simp [hact]
  · simp only [hact, if_false]
    by_cases hr : ((ms.filter fun m => !m.isNeutralized).filter
        fun m => isRedKeywordName m.keyword) = []
    · by_cases hy : ((ms.filter fun m => !m.isNeutralized).filter
          fun m => isYellowKeywordName m.keyword) = []
      · by_cases hg : ((ms.filter fun m => !m.isNeutralized).filter
            fun m => isGreenKeywordName m.keyword) = []
        · simp [hr, hy, hg]
        · simp [hr, hy, hg]
      · simp [hr, hy]
    · simp [hr]

/-! ## Claim C8 -/

theorem roundTimes_mono (M : Nat) {d1 d2 : Option Int} (h : deadlineLe d1 d2) :
    jsRoundTimes M (getDeadlineMultiplier d2)
      ≤ jsRoundTimes M (getDeadlineMultiplier d1) := by
  cases d2 with
  | none =>
    cases d1 with
    | none => exact Nat.le_refl _
    | some a =>
      simp only [getDeadlineMultiplier, jsRoundTimes]
      split_ifs <;> simp <;> omega
  | some b =>
    cases d1 with
    | none => exact absurd h (by simp [deadlineLe])
    | some a =>
      have hab : a ≤ b := h
      simp only [getDeadlineMultiplier, jsRoundTimes]
      split_ifs <;> simp <;> omega

/-- C8: for a fixed match list containing at least one active red-tier
match, the aggregate score is non-increasing as the deadline grows (with
the unknown deadline as the largest), and is capped at 100. -/
theorem claim_C8 (ms : List ExtendedKeywordMatch) (d1 d2 : Option Int)
    (hred : ∃ m ∈ ms, m.isNeutralized = false
      ∧ isRedKeywordName m.keyword = true)
    (hle : deadlineLe d1 d2) :
    calculateScoreWithContext ms d2 ≤ calculateScoreWithContext ms d1
      ∧ calculateScoreWithContext ms d1 ≤ 100 := by
  obtain ⟨m, hm, hneut, hisred⟩ := hred
  have hmem1 : m ∈ ms.filter (fun m => !m.isNeutralized) :=
    List.mem_filter.mpr ⟨hm, by simp [hneut]⟩
  have hmem2 : m ∈ (ms.filter (fun m => !m.isNeutralized)).filter
      (fun m => isRedKeywordName m.keyword) :=
    List.mem_filter.mpr ⟨hmem1, hisred⟩
  have hact : (ms.filter fun m => !m.isNeutralized).isEmpty = false :=
    List.isEmpty_eq_false.mpr (List.ne_nil_of_mem hmem1)
  have hredne : ((ms.filter fun m => !m.isNeutralized).filter
      fun m => isRedKeywordName m.keyword).isEmpty = false :=
    List.isEmpty_eq_false.mpr (List.ne_nil_of_mem hmem2)
  simp only [calculateScoreWithContext, hact, hredne, Bool.false_eq_true,
    if_false, Bool.not_false, if_true]
  exact ⟨min_le_min (Nat.le_refl 100) (roundTimes_mono _ hle),
    min_le_left _ _⟩

/-- Witness for C8: a single active red match of weight 90, deadlines 3 and
10 days. -/
theorem claim_C8_witness :
    calculateScoreWithContext
        [⟨"pfändung", .enforcement, 90, "", 90, 90, false, ""⟩] (some 10)
      ≤ calculateScoreWithContext
        [⟨"pfändung", .enforcement, 90, "", 90, 90, false, ""⟩] (some 3)
    ∧ calculateScoreWithContext
        [⟨"pfändung", .enforcement, 90, "", 90, 90, false, ""⟩] (some 3)
      ≤ 100 :=
  claim_C8 [⟨"pfändung", .enforcement, 90, "", 90, 90, false, ""⟩]
    (some 3) (some 10)
    ⟨⟨"pfändung", .enforcement, 90, "", 90, 90, false, ""⟩, by decide,
      by decide, by decide⟩
    (by show (3 : Int) ≤ 10; norm_num)

/-! ## Claim C4 -/

theorem cancel_decision {s : String} (kw : String)
    (h : (CANCELLATION_VERBS.find?
      (fun v => testPat v.pattern (lowerL s.data))).isSome = true) :
    (∃ n, evalCtxDecision s kw = .negated n)
      ∨ (∃ v, evalCtxDecision s kw = .cancelled v) := by
  rcases h1 : STRONG_NEGATORS.find?
      (fun n => testPat n.pattern (windowTextOf s kw)) with _ | n
  · rcases h2 : CANCELLATION_VERBS.find?
        (fun v => testPat v.pattern (lowerL s.data)) with _ | v
    · rw [h2] at h
      simp at h
    · exact Or.inr ⟨v, by unfold evalCtxDecision; rw [h1, h2]⟩
  · exact Or.inl ⟨n, by unfold evalCtxDecision; rw [h1]⟩

/-- A sentence matching a cancellation verb always neutralizes every keyword
evaluated in it (rule 1 or rule 2 fires, both neutralizing). -/
theorem neutralized_of_cancellation {s kw : String} {cat : LetterCategory}
    {w : Nat}
    (h : ∃ v ∈ CANCELLATION_VERBS, testPat v.pattern (lowerL s.data) = true) :
    (evaluateKeywordInContext s kw cat w).effectiveWeight = 0
      ∧ (evaluateKeywordInContext s kw cat w).isNeutralized = true := by
  have hsome : (CANCELLATION_VERBS.find?
      (fun v => testPat v.pattern (lowerL s.data))).isSome = true := by
    rw [List.find?_isSome]
    exact h
  rcases cancel_decision kw hsome with ⟨n, hd⟩ | ⟨v, hd⟩ <;>
    simp [evaluateKeywordInContext, hd]

theorem collector_all_neutralized {t : String}
    (hbet : extractBetreffAndBody t = none)
    (hsplit : splitIntoSentences t = [t])
    (hcancel : ∃ v ∈ CANCELLATION_VERBS,
      testPat v.pattern (lowerL t.data) = true) :
    ∀ m ∈ findKeywordMatchesWithContext t, m.isNeutralized = true := by
  intro m hm
  unfold findKeywordMatchesWithContext at hm
  rw [hbet, hsplit] at hm
  simp only [List.flatMap_cons, List.flatMap_nil, List.append_nil] at hm
  unfold findKeywordMatchesInSentence at hm
  rw [List.mem_flatMap] at hm
  obtain ⟨kd, _, hm⟩ := hm
  by_cases hc : containsL (lowerL t.data) kd.keyword.data
  · rw [if_pos hc] at hm
    rw [List.mem_singleton] at hm
    subst hm
    exact (neutralized_of_cancellation hcancel).2
  · rw [if_neg hc] at hm
    exact absurd hm (List.not_mem_nil m)

/-- C4, amended: for every single-unit text `s` — one the Sentence Segmenter
returns unchanged and in which no subject-line pattern matches — that
contains a red-tier keyword together with a cancellation verb, the Context
Evaluator neutralizes the keyword (effectiveWeight 0) and `analyzeText`
scores the text 0.  The original claim omitted the subject-line proviso: a
sentence such as "Bezug: Pfändung aufgehoben" is routed to the Subject-Line
Handler, which evaluates the keyword against the (empty) body instead of the
sentence and keeps its full weight. -/
theorem claim_C4_amended (s : String) (kd : KeywordDefinition)
    (d : Option Int)
    (hsplit : splitIntoSentences s = [s])
    (hbet : extractBetreffAndBody s = none)
    (_hkd : kd ∈ RED_KEYWORDS)
    (_hfound : containsL (lowerL s.data) kd.keyword.data = true)
    (hcancel : ∃ v ∈ CANCELLATION_VERBS,
      testPat v.pattern (lowerL s.data) = true) :
    (evaluateKeywordInContext s kd.keyword kd.category
        kd.weight).effectiveWeight = 0
      ∧ (evaluateKeywordInContext s kd.keyword kd.category
          kd.weight).isNeutralized = true
      ∧ (analyzeText s d).score = 0 := by
  refine ⟨(neutralized_of_cancellation hcancel).1,
    (neutralized_of_cancellation hcancel).2, ?_⟩
  show calculateScoreWithContext (findKeywordMatchesWithContext s) d = 0
  exact score_zero_of_all_neutralized
    (collector_all_neutralized hbet hsplit hcancel) d

/-- C4, counterexample: "Bezug: Pfändung aufgehoben" is a single sentence
containing the red keyword "pfändung" and the cancellation verb
"aufgehoben", yet `analyzeText` scores it 90, not 0: the `Bezug:` prefix
matches a subject-line pattern, so the keyword is evaluated against the
empty body and keeps its full weight. -/
theorem claim_C4_counterexample :
    splitIntoSentences "Bezug: Pfändung aufgehoben"
        = ["Bezug: Pfändung aufgehoben"]
      ∧ containsL (lowerL "Bezug: Pfändung aufgehoben".data)
          "pfändung".data = true
      ∧ (∃ v ∈ CANCELLATION_VERBS,
          testPat v.pattern (lowerL "Bezug: Pfändung aufgehoben".data) = true)
      ∧ (analyzeText "Bezug: Pfändung aufgehoben" none).score = 90
      ∧ (analyzeText "Bezug: Pfändung aufgehoben" none).score ≠ 0 :=
  ⟨rfl, rfl, by decide, rfl, by decide⟩

/-- Witness for C4: "Die Pfändung wurde aufgehoben." is Betreff-free and
single-unit, contains red keyword "pfändung" and cancellation verb
"aufgehoben". -/
theorem claim_C4_witness :
    (evaluateKeywordInContext "Die Pfändung wurde aufgehoben." "pfändung"
        .enforcement 90).effectiveWeight = 0
      ∧ (evaluateKeywordInContext "Die Pfändung wurde aufgehoben." "pfändung"
          .enforcement 90).isNeutralized = true
      ∧ (analyzeText "Die Pfändung wurde aufgehoben." none).score = 0 :=
  claim_C4_amended "Die Pfändung wurde aufgehoben."
    ⟨"pfändung", .enforcement, .red, 90⟩ none (by rfl) (by rfl) (by decide)
    (by rfl) (by decide)

/-! ## Claim C7 -/

theorem jsMaxE_ok (l : List Nat) (h : l ≠ []) : jsMaxE l = .ok (listMax l) := by
  cases l with
  | nil => exact absurd rfl h
  | cons a t => rfl

theorem exceptMap_ok {α β : Type} (f : α → β) (x : α) :
    (f <$> (Except.ok x : Except String α)) = .ok (f x) := rfl

theorem exists_of_filter_ne_nil {p : ExtendedKeywordMatch → Bool}
    {ms : List ExtendedKeywordMatch}
    (h : (ms.filter fun m => !m.isNeutralized).filter p ≠ []) :
    ∃ x ∈ ms, p x = true ∧ x.isNeutralized = false := by
  obtain ⟨x, hx⟩ := List.exists_mem_of_ne_nil _ h
  have h1 := List.mem_filter.mp hx
  have h2 := List.mem_filter.mp h1.1
  exact ⟨x, h2.1, h1.2, by simpa using h2.2⟩

theorem fused_ne_nil {p : ExtendedKeywordMatch → Bool}
    {ms : List ExtendedKeywordMatch}
    (h : (ms.filter fun m => !m.isNeutralized).filter p ≠ []) :
    (ms.filter fun a => p a && !a.isNeutralized) ≠ [] := by
  rw [List.filter_filter] at h
  exact h

theorem calcScoreE_ok (ms : List ExtendedKeywordMatch) (d : Option Int) :
    calculateScoreWithContextE ms d
      = Except.ok (calculateScoreWithContext ms d) := by
  unfold calculateScoreWithContextE calculateScoreWithContext
  by_cases hact : (ms.filter fun m => !m.isNeutralized) = []
  · simp [hact]
  · by_cases hr : ((ms.filter fun m => !m.isNeutralized).filter
        fun m => isRedKeywordName m.keyword) = []
    · by_cases hy : ((ms.filter fun m => !m.isNeutralized).filter
          fun m => isYellowKeywordName m.keyword) = []
      · by_cases hg : ((ms.filter fun m => !m.isNeutralized).filter
            fun m => isGreenKeywordName m.keyword) = []
        · simp [hact, hr, hy, hg]
        · have hex : ∃ x ∈ ms, isGreenKeywordName x.keyword = true
              ∧ x.isNeutralized = false := exists_of_filter_ne_nil hg
          have hmax := jsMaxE_ok ((ms.filter fun a =>
            isGreenKeywordName a.keyword && !a.isNeutralized).map
              (fun x => x.effectiveWeight))
            (by rw [Ne, List.map_eq_nil_iff]; exact fused_ne_nil hg)
          simp [hact, hr, hy, hg, hmax, exceptMap_ok, hex]
      · have hex : ∃ x ∈ ms, isYellowKeywordName x.keyword = true
            ∧ x.isNeutralized = false := exists_of_filter_ne_nil hy
        have hmax := jsMaxE_ok ((ms.filter fun a =>
          isYellowKeywordName a.keyword && !a.isNeutralized).map
            (fun x => x.effectiveWeight))
          (by rw [Ne, List.map_eq_nil_iff]; exact fused_ne_nil hy)
        simp [hact, hr, hmax, exceptMap_ok, hex]
    · have hex : ∃ x ∈ ms, isRedKeywordName x.keyword = true
          ∧ x.isNeutralized = false := exists_of_filter_ne_nil hr
      have hmax := jsMaxE_ok ((ms.filter fun a =>
        isRedKeywordName a.keyword && !a.isNeutralized).map
          (fun x => x.effectiveWeight))
        (by rw [Ne, List.map_eq_nil_iff]; exact fused_ne_nil hr)
      simp [hact, hmax, exceptMap_ok, hex]

/-- C7: `analyzeText` is total — the variant in which every potentially
partial operation (in particular `Math.max` over a possibly empty list) is
made explicitly fallible returns `Except.ok` of the pure result on every
input, so no exception is reachable. -/
theorem claim_C7 (text : String) (d : Option Int) :
    analyzeTextE text d = Except.ok (analyzeText text d) := by
  simp only [analyzeTextE, analyzeText, calcScoreE_ok]
  rfl

/-! ## Claim C1 -/


theorem eval_keyword_id (s k : String) (c : LetterCategory) (w : Nat) :
    (evaluateKeywordInContext s k c w).keyword = k := by
  cases hd : evalCtxDecision s k <;> simp [evaluateKeywordInContext, hd]

theorem evalBetreff_keyword_id (k : String) (c : LetterCategory) (w : Nat)
    (bl bt : String) :
    (evaluateBetreffKeywordWithBodyContext k c w bl bt).keyword = k := by
  cases hd : evalBetreffDecision k bt <;>
    simp [evaluateBetreffKeywordWithBodyContext, hd]

theorem kwPositions_ne_nil {text kw : String}
    (h : findKeywordPositions text kw ≠ []) :
    containsL (lowerL text.data) (lowerL kw.data) = true := by
  unfold findKeywordPositions at h
  rw [kwPosGo] at h
  by_cases h0 : 0 < (lowerL text.data).length
  · rw [if_pos h0] at h
    rcases hocc : occFrom (lowerL kw.data) (lowerL text.data) 0 with _ | idx
    · rw [hocc] at h
      exact absurd rfl h
    · unfold containsL
      rw [hocc]
      rfl
  · rw [if_neg h0] at h
    exact absurd rfl h

theorem mem_spansForPositions {mk : Nat → Nat → HighlightSpan} {base : Nat}
    {ps proc : List (Nat × Nat)} {sp : HighlightSpan}
    (h : sp ∈ (spansForPositions mk base ps proc).1) :
    (∃ a b, sp = mk a b) ∧ ps ≠ [] := by
  induction ps generalizing proc with
  | nil => simp [spansForPositions] at h
  | cons p rest ih =>
    obtain ⟨s, t⟩ := p
    rw [spansForPositions] at h
    split at h
    · exact ⟨(ih h).1, by simp⟩
    · rcases List.mem_cons.mp h with h | h
      · exact ⟨⟨base + s, base + t, h⟩, by simp⟩
      · exact ⟨(ih h).1, by simp⟩

theorem mem_sentenceDefsLoop {sentence : String} {st : Nat}
    {defs : List KeywordDefinition} {proc : List (Nat × Nat)}
    {sp : HighlightSpan}
    (h : sp ∈ (sentenceDefsLoop sentence st defs proc).1) :
    ∃ kd ∈ defs, (∃ a b, sp = mkSentenceSpan kd sentence a b)
      ∧ findKeywordPositions sentence kd.keyword ≠ [] := by
  induction defs generalizing proc with
  | nil => simp [sentenceDefsLoop] at h
  | cons kd rest ih =>
    simp only [sentenceDefsLoop] at h
    rcases List.mem_append.mp h with h | h
    · obtain ⟨hex, hne⟩ := mem_spansForPositions h
      exact ⟨kd, List.mem_cons_self kd rest, hex, hne⟩
    · obtain ⟨kd2, hkd2, hex, hne⟩ := ih h
      exact ⟨kd2, List.mem_cons_of_mem _ hkd2, hex, hne⟩

theorem mem_betreffDefsLoop {e : BetreffExtraction}
    {defs : List KeywordDefinition} {proc : List (Nat × Nat)}
    {sp : HighlightSpan}
    (h : sp ∈ (betreffDefsLoop e defs proc).1) :
    ∃ kd ∈ defs, (∃ a b, sp = mkBetreffSpan kd e a b)
      ∧ findKeywordPositions e.betreff kd.keyword ≠ [] := by
  induction defs generalizing proc with
  | nil => simp [betreffDefsLoop] at h
  | cons kd rest ih =>
    simp only [betreffDefsLoop] at h
    rcases List.mem_append.mp h with h | h
    · obtain ⟨hex, hne⟩ := mem_spansForPositions h
      exact ⟨kd, List.mem_cons_self kd rest, hex, hne⟩
    · obtain ⟨kd2, hkd2, hex, hne⟩ := ih h
      exact ⟨kd2, List.mem_cons_of_mem _ hkd2, hex, hne⟩

theorem mem_bodySentencesLoop {text : String} {bodyStart : Nat}
    {sents : List String} {proc : List (Nat × Nat)} {sp : HighlightSpan}
    (h : sp ∈ (bodySentencesLoop text bodyStart sents proc).1) :
    ∃ s ∈ sents, ∃ kd ∈ ALL_KEYWORDS,
      (∃ a b, sp = mkSentenceSpan kd s a b)
        ∧ findKeywordPositions s kd.keyword ≠ [] := by
  induction sents generalizing proc with
  | nil => simp [bodySentencesLoop] at h
  | cons s rest ih =>
    rcases hocc : occFrom s.data text.data bodyStart with _ | st <;>
      simp only [bodySentencesLoop, hocc] at h
    · obtain ⟨s2, hs2, r⟩ := ih h
      exact ⟨s2, List.mem_cons_of_mem _ hs2, r⟩
    · rcases List.mem_append.mp h with h | h
      · obtain ⟨kd, hkd, hex, hne⟩ := mem_sentenceDefsLoop h
        exact ⟨s, List.mem_cons_self s rest, kd, hkd, hex, hne⟩
      · obtain ⟨s2, hs2, r⟩ := ih h
        exact ⟨s2, List.mem_cons_of_mem _ hs2, r⟩

theorem mem_mainSentencesLoop {text : String} {sents : List String}
    {searchStart : Nat} {proc : List (Nat × Nat)} {sp : HighlightSpan}
    (h : sp ∈ mainSentencesLoop text sents searchStart proc) :
    ∃ s ∈ sents, ∃ kd ∈ ALL_KEYWORDS,
      (∃ a b, sp = mkSentenceSpan kd s a b)
        ∧ findKeywordPositions s kd.keyword ≠ [] := by
  induction sents generalizing searchStart proc with
  | nil => simp [mainSentencesLoop] at h
  | cons s rest ih =>
    rcases hocc : occFrom s.data text.data searchStart with _ | st <;>
      simp only [mainSentencesLoop, hocc] at h
    · obtain ⟨s2, hs2, r⟩ := ih h
      exact ⟨s2, List.mem_cons_of_mem _ hs2, r⟩
    · rcases List.mem_append.mp h with h | h
      · obtain ⟨kd, hkd, hex, hne⟩ := mem_sentenceDefsLoop h
        exact ⟨s, List.mem_cons_self s rest, kd, hkd, hex, hne⟩
      · obtain ⟨s2, hs2, r⟩ := ih h
        exact ⟨s2, List.mem_cons_of_mem _ hs2, r⟩

theorem mem_insertSpan {x y : HighlightSpan} {l : List HighlightSpan}
    (h : y ∈ insertSpan x l) : y = x ∨ y ∈ l := by
  induction l with
  | nil => simpa [insertSpan] using h
  | cons z rest ih =>
    rw [insertSpan] at h
    split at h
    · rcases List.mem_cons.mp h with h | h
      · exact Or.inr (h ▸ List.mem_cons_self z rest)
      · rcases ih h with h | h
        · exact Or.inl h
        · exact Or.inr (List.mem_cons_of_mem _ h)
    · rcases List.mem_cons.mp h with h | h
      · exact Or.inl h
      · exact Or.inr h

theorem mem_sortSpans_aux {sp : HighlightSpan} :
    ∀ (l acc : List HighlightSpan),
      sp ∈ l.foldl (fun acc x => insertSpan x acc) acc →
        sp ∈ acc ∨ sp ∈ l := by
  intro l
  induction l with
  | nil => intro acc h; exact Or.inl h
  | cons x rest ih =>
    intro acc h
    rcases ih (insertSpan x acc) h with h | h
    · rcases mem_insertSpan h with h | h
      · exact Or.inr (h ▸ List.mem_cons_self x rest)
      · exact Or.inl h
    · exact Or.inr (List.mem_cons_of_mem _ h)

theorem mem_sortSpans {sp : HighlightSpan} {l : List HighlightSpan}
    (h : sp ∈ sortSpans l) : sp ∈ l := by
  rcases mem_sortSpans_aux l [] h with h | h
  · exact absurd h (List.not_mem_nil sp)
  · exact h

theorem mem_findKeywordMatchesInSentence {s : String} {kd : KeywordDefinition}
    (hkd : kd ∈ ALL_KEYWORDS)
    (hc : containsL (lowerL s.data) kd.keyword.data = true) :
    toExtendedMatch
        (evaluateKeywordInContext s kd.keyword kd.category kd.weight)
      ∈ findKeywordMatchesInSentence s := by
  unfold findKeywordMatchesInSentence
  rw [List.mem_flatMap]
  exact ⟨kd, hkd, by rw [if_pos hc]; exact List.mem_singleton_self _⟩

theorem mem_findBetreffKeywordMatches {bl bt : String}
    {kd : KeywordDefinition} (hkd : kd ∈ ALL_KEYWORDS)
    (hc : containsL (lowerL bl.data) kd.keyword.data = true) :
    toExtendedMatch
        (evaluateBetreffKeywordWithBodyContext kd.keyword kd.category
          kd.weight bl bt)
      ∈ findBetreffKeywordMatches bl bt := by
  unfold findBetreffKeywordMatches
  rw [List.mem_flatMap]
  exact ⟨kd, hkd, by rw [if_pos hc]; exact List.mem_singleton_self _⟩

theorem dict_keyword_lower :
    ∀ kd ∈ ALL_KEYWORDS, lowerL kd.keyword.data = kd.keyword.data := by decide

/-- C1, amended: for every text, every (keyword, tier, isNeutralized) triple
occurring among the Highlight Projector's spans also occurs among the Match
Collector's matches.  The original multiset equality (and even the converse
set inclusion) fails: the projector emits one span per textual occurrence
while the collector emits one match per sentence, and the projector silently
drops sentence units it cannot relocate in the original text. -/
theorem claim_C1_amended (text : String) (x : String × UrgencyLevel × Bool)
    (hx : x ∈ highlightTriples text) : x ∈ collectorTriples text := by
  unfold highlightTriples at hx
  rw [List.mem_map] at hx
  obtain ⟨sp, hsp, rfl⟩ := hx
  unfold collectorTriples findKeywordMatchesWithContext
  unfold getHighlightSpans at hsp
  rw [List.mem_map]
  split at hsp
  · rename_i e heq
    have hsp2 := mem_sortSpans hsp
    rcases List.mem_append.mp hsp2 with h | h
    · obtain ⟨kd, hkd, ⟨a, b, rfl⟩, hne⟩ := mem_betreffDefsLoop h
      have hcont := kwPositions_ne_nil hne
      rw [dict_keyword_lower kd hkd] at hcont
      refine ⟨toExtendedMatch
        (evaluateBetreffKeywordWithBodyContext kd.keyword kd.category
          kd.weight e.betreff e.body), ?_, ?_⟩
      · exact List.mem_append_left _
          (mem_findBetreffKeywordMatches hkd hcont)
      · show (_, _, _) = spanTriple _
        unfold spanTriple mkBetreffSpan toExtendedMatch
        rw [evalBetreff_keyword_id]
    · obtain ⟨s, hs, kd, hkd, ⟨a, b, rfl⟩, hne⟩ := mem_bodySentencesLoop h
      have hcont := kwPositions_ne_nil hne
      rw [dict_keyword_lower kd hkd] at hcont
      refine ⟨toExtendedMatch
        (evaluateKeywordInContext s kd.keyword kd.category kd.weight),
        ?_, ?_⟩
      · refine List.mem_append_right _ ?_
        rw [List.mem_flatMap]
        exact ⟨s, hs, mem_findKeywordMatchesInSentence hkd hcont⟩
      · show (_, _, _) = spanTriple _
        unfold spanTriple mkSentenceSpan toExtendedMatch
        rw [eval_keyword_id]
  · rename_i heq
    have hsp2 : sp ∈ mainSentencesLoop text (splitIntoSentences text) 0 [] :=
      mem_sortSpans hsp
    obtain ⟨s, hs, kd, hkd, ⟨a, b, rfl⟩, hne⟩ := mem_mainSentencesLoop hsp2
    have hcont := kwPositions_ne_nil hne
    rw [dict_keyword_lower kd hkd] at hcont
    refine ⟨toExtendedMatch
      (evaluateKeywordInContext s kd.keyword kd.category kd.weight), ?_, ?_⟩
    · rw [List.mem_flatMap]
      exact ⟨s, hs, mem_findKeywordMatchesInSentence hkd hcont⟩
    · show (_, _, _) = spanTriple _
      unfold spanTriple mkSentenceSpan toExtendedMatch
      rw [eval_keyword_id]

/-- C1, counterexample: on "Mahnung\nBetreff: Frist\nInkasso" the collector
finds an active "mahnung" match that the projector misses entirely (the body
sentence "Mahnung\nInkasso" is not a substring of the original text, so its
spans are dropped), and on "Mahnung Mahnung" the projector emits two
"mahnung" triples where the collector emits one — so the two multisets are
not equal in either direction. -/
theorem claim_C1_counterexample :
    (collectorTriples "Mahnung\nBetreff: Frist\nInkasso").count
        ("mahnung", UrgencyLevel.yellow, false) = 1
      ∧ (highlightTriples "Mahnung\nBetreff: Frist\nInkasso").count
          ("mahnung", UrgencyLevel.yellow, false) = 0
      ∧ (highlightTriples "Mahnung Mahnung").count
          ("mahnung", UrgencyLevel.yellow, false) = 2
      ∧ (collectorTriples "Mahnung Mahnung").count
          ("mahnung", UrgencyLevel.yellow, false) = 1 :=
  ⟨rfl, rfl, rfl, rfl⟩

/-- Witness for C1: the amended inclusion applied to a concrete span triple
of the first counterexample text. -/
theorem claim_C1_witness :
    ("frist", UrgencyLevel.yellow, false)
      ∈ collectorTriples "Mahnung\nBetreff: Frist\nInkasso" :=
  claim_C1_amended "Mahnung\nBetreff: Frist\nInkasso"
    ("frist", UrgencyLevel.yellow, false) (by decide)

end BK
